import Mathlib

/-!
# NFSound: seed-to-sound pipeline

A shallow embedding of `src/src/NFSound.cpp`: the fourteen sound formulas, the
two formula tables, the nibble selector of `loop` and its render loop.

Machine integers are natural numbers reduced explicitly (`% 2^32` for
`uint32_t`, `% 2^8` for `uint8_t`).  Every operation that C leaves undefined
(division or modulo by zero, a shift by 32 or more, an array access outside
the declared array) is a `Fault`, so a function that returns `.ok v` has
executed without any of them.
-/

namespace NFSound

/-! ## Machine model -/

/-- The ways an execution can leave defined behaviour. -/
inductive Fault where
  | divByZero
  | shiftRange
  | outOfBounds
  | outOfFuel
  deriving DecidableEq, Repr

instance {ε α : Type} [DecidableEq ε] [DecidableEq α] : DecidableEq (Except ε α)
  | .ok a, .ok b => if h : a = b then isTrue (by rw [h]) else isFalse (by intro e; cases e; exact h rfl)
  | .error a, .error b =>
    if h : a = b then isTrue (by rw [h]) else isFalse (by intro e; cases e; exact h rfl)
  | .ok _, .error _ => isFalse (by intro e; cases e)
  | .error _, .ok _ => isFalse (by intro e; cases e)

/-- Reduction to `uint8_t`. -/
def u8 (n : Nat) : Nat := n % 2 ^ 8

/-- Reduction to `uint32_t`. -/
def u32 (n : Nat) : Nat := n % 2 ^ 32

/-- The `uint32_t` product `a * b`. -/
def umul (a b : Nat) : Nat := u32 (a * b)

/-- The `uint32_t` quotient `a / b`; undefined for `b = 0`. -/
def udiv (a b : Nat) : Except Fault Nat :=
  if b = 0 then .error .divByZero else .ok (a / b)

/-- The `uint32_t` remainder `a % b`; undefined for `b = 0`. -/
def umod (a b : Nat) : Except Fault Nat :=
  if b = 0 then .error .divByZero else .ok (a % b)

/-- The `uint32_t` right shift `a >> n`; undefined for `n ≥ 32`. -/
def shr (a n : Nat) : Except Fault Nat :=
  if n < 32 then .ok (a >>> n) else .error .shiftRange

/-- Read `buf[i]` of a C array of `buf.length` entries. -/
def readBuf {α : Type} (buf : List α) (i : Nat) : Except Fault α :=
  match buf[i]? with
  | some v => .ok v
  | none => .error .outOfBounds

/-- Write `buf[i] = v` of a C array of `buf.length` entries. -/
def writeBuf (buf : List Nat) (i v : Nat) : Except Fault (List Nat) :=
  if i < buf.length then .ok (buf.set i v) else .error .outOfBounds

/-! ## Configuration constants (lines 38-50) -/

def DELAY_44K : Nat := 22
def DELAY_22K : Nat := 45
def DELAY_11K : Nat := 90
def DELAY_8K : Nat := 125
def RATE_44K : Nat := 44100
def RATE_22K : Nat := 22050
def RATE_11K : Nat := 11025
def RATE_8K : Nat := 8000
def DURATION : Nat := 10

/-! ## Sound formulas (lines 58-72)

Each body follows the C operator precedence: `* / %` bind tighter than `>>`,
which binds tighter than `&`, which binds tighter than `|`. -/

/-- Source text: `(t&t>>6)|(t>>2)%256` -/
def form1 (t : Nat) : Except Fault Nat := do
  let a ← shr t 6
  let b ← shr t 2
  let c ← umod b 256
  pure ((t &&& a) ||| c)

/-- Source text: `2*t&((t>>4)|(t>>14))%128` -/
def form2 (t : Nat) : Except Fault Nat := do
  let a ← shr t 4
  let b ← shr t 14
  let c ← umod (a ||| b) 128
  pure (umul 2 t &&& c)

/-- Source text: `t * ((t>>3|t>>9)&64&t>>2)` -/
def form5 (t : Nat) : Except Fault Nat := do
  let a ← shr t 3
  let b ← shr t 9
  let c ← shr t 2
  pure (umul t (((a ||| b) &&& 64) &&& c))

/-- Source text: `7*(t%((t>>13)&(t>>6)))` -/
def form6 (t : Nat) : Except Fault Nat := do
  let a ← shr t 13
  let b ← shr t 6
  let c ← umod t (a &&& b)
  pure (umul 7 c)

/-- Source text: `(t*5&t>>7)|(t*3&t>>10)` -/
def form7 (t : Nat) : Except Fault Nat := do
  let a ← shr t 7
  let b ← shr t 10
  pure ((umul t 5 &&& a) ||| (umul t 3 &&& b))

/-- Source text: `(t*t/256)&( t>>((t/1024)%16))` -/
def form8 (t : Nat) : Except Fault Nat := do
  let a ← udiv (umul t t) 256
  let b ← udiv t 1024
  let c ← umod b 16
  let d ← shr t c
  pure (a &&& d)

/-- Source text: `(t*t/128)&(t>>((t/256)%16))` -/
def form9 (t : Nat) : Except Fault Nat := do
  let a ← udiv (umul t t) 128
  let b ← udiv t 256
  let c ← umod b 16
  let d ← shr t c
  pure (a &&& d)

/-- Source text: `2*((t&2*t>>16)|(t&2*t>>8))%128` -/
def form11 (t : Nat) : Except Fault Nat := do
  let a ← shr (umul 2 t) 16
  let b ← shr (umul 2 t) 8
  umod (umul 2 ((t &&& a) ||| (t &&& b))) 128

/-- Source text: `2*(t*(t>>10|t>>5)&16)` -/
def form12 (t : Nat) : Except Fault Nat := do
  let a ← shr t 10
  let b ← shr t 5
  pure (umul 2 (umul t (a ||| b) &&& 16))

/-- Source text: `2*(2*t*(t>>14|t>>12)&16)` -/
def form13 (t : Nat) : Except Fault Nat := do
  let a ← shr t 14
  let b ← shr t 12
  pure (umul 2 (umul (umul 2 t) (a ||| b) &&& 16))

/-- Source text: `2*(t*(t>>9|t>>13)&16)` -/
def form14 (t : Nat) : Except Fault Nat := do
  let a ← shr t 9
  let b ← shr t 13
  pure (umul 2 (umul t (a ||| b) &&& 16))

/-- Source text: `2*(t*(t>>12|t>>6)&32)` -/
def form15 (t : Nat) : Except Fault Nat := do
  let a ← shr t 12
  let b ← shr t 6
  pure (umul 2 (umul t (a ||| b) &&& 32))

/-- Source text: `2*(t*(3*t>>4|2*t>>10)&32)` -/
def form16 (t : Nat) : Except Fault Nat := do
  let a ← shr (umul 3 t) 4
  let b ← shr (umul 2 t) 10
  pure (umul 2 (umul t (a ||| b) &&& 32))

/-- Source text: `8*(t*(t>>14|t>>10)&8)` -/
def form17 (t : Nat) : Except Fault Nat := do
  let a ← shr t 14
  let b ← shr t 10
  pure (umul 8 (umul t (a ||| b) &&& 8))

/-- The function-pointer type `formulaArrayType` (line 56). -/
abbrev formulaArrayType : Type := Nat → Except Fault Nat

/-- The table `formArray1` (lines 101-104). -/
def formArray1 : List formulaArrayType :=
  [form1, form2, form5, form7, form11, form15, form16]

/-- The table `formArray2` (lines 106-109). -/
def formArray2 : List formulaArrayType :=
  [form6, form8, form9, form12, form13, form14, form17]

/-! ## Selector (lines 131-150) -/

/-- The loop of lines 133-137, from the state `(i, uidNibbles, nibbleIndex)`.
`i` and `nibbleIndex` are `uint8_t`. -/
def extractLoop (uid : List Nat) (uidLength : Nat) :
    Nat → Nat → List Nat → Nat → Except Fault (List Nat × Nat)
  | 0, _, _, _ => .error .outOfFuel
  | fuel + 1, i, uidNibbles, nibbleIndex =>
    if i < uidLength then do
      let byte ← readBuf uid i
      let uidNibbles ← writeBuf uidNibbles nibbleIndex ((byte &&& 0xF0) >>> 4)
      let nibbleIndex := u8 (nibbleIndex + 1)
      let uidNibbles ← writeBuf uidNibbles nibbleIndex (byte &&& 0x0F)
      let nibbleIndex := u8 (nibbleIndex + 1)
      extractLoop uid uidLength fuel (u8 (i + 1)) uidNibbles nibbleIndex
    else .ok (uidNibbles, nibbleIndex)

/-- Lines 131-137: `nibbleIndex = 0` and the extraction loop; the result is the
array `uidNibbles` and the final `nibbleIndex`.  A `uint8_t` counter below
`uidLength` takes at most 255 values, so 256 steps end the loop. -/
def extractNibbles (uid : List Nat) (uidLength : Nat) (uidNibbles : List Nat) :
    Except Fault (List Nat × Nat) :=
  extractLoop uid uidLength 256 0 uidNibbles 0

/-- The loop of lines 143-146, from the state `(i, evenNibbleSum, oddNibbleSum)`,
all three `uint8_t`; the bound `uidLength * 2` is an `int`. -/
def sumLoop (uidNibbles : List Nat) (uidLength : Nat) :
    Nat → Nat → Nat → Nat → Except Fault (Nat × Nat)
  | 0, _, _, _ => .error .outOfFuel
  | fuel + 1, i, evenNibbleSum, oddNibbleSum =>
    if i < uidLength * 2 then do
      let e ← readBuf uidNibbles i
      let evenNibbleSum := u8 (evenNibbleSum + e)
      let o ← readBuf uidNibbles (i + 1)
      let oddNibbleSum := u8 (oddNibbleSum + o)
      sumLoop uidNibbles uidLength fuel (u8 (i + 2)) evenNibbleSum oddNibbleSum
    else .ok (evenNibbleSum, oddNibbleSum)

/-- Lines 141-146: both sums start at 0.  The counter takes at most 128 even
`uint8_t` values before it repeats, so 256 steps end every run that ends. -/
def nibbleSums (uidNibbles : List Nat) (uidLength : Nat) : Except Fault (Nat × Nat) :=
  sumLoop uidNibbles uidLength 256 0 0 0

/-- The locals that lines 131-150 assign. -/
structure Selection where
  uidNibbles : List Nat
  nibbleIndex : Nat
  evenNibbleSum : Nat
  oddNibbleSum : Nat
  array1ID : Nat
  array2ID : Nat
  deriving DecidableEq, Repr

/-- Lines 131-150: from the `uid` array and `uidLength` left by the reader and
the array `uidNibbles`, the nibbles, their two sums and the two table
indices. -/
def selector (uid : List Nat) (uidLength : Nat) (uidNibbles : List Nat) :
    Except Fault Selection := do
  let (uidNibbles, nibbleIndex) ← extractNibbles uid uidLength uidNibbles
  let (evenNibbleSum, oddNibbleSum) ← nibbleSums uidNibbles uidLength
  let array1ID := u8 (evenNibbleSum % 7)
  let array2ID := u8 (oddNibbleSum % 7)
  pure ⟨uidNibbles, nibbleIndex, evenNibbleSum, oddNibbleSum, array1ID, array2ID⟩

/-! ## Card reader (line 121)

`Adafruit_PN532::readPassiveTargetID` is a library call.  Its effect is taken
from the comment of lines 117-119: when a card is found, `uid` is populated
with the UID and `uidLength` is its length. -/

/-- Store the UID bytes (each a `uint8_t`) at `uid[i]`, `uid[i+1]`, ... -/
def storeUid : List Nat → Nat → List Nat → Except Fault (List Nat)
  | [], _, uid => .ok uid
  | b :: bs, i, uid => do
    let uid ← writeBuf uid i b
    storeUid bs (i + 1) uid

/-- The reader call: `none` is no card (`success = 0`, nothing written),
`some bytes` a card with that UID.  Returns `(success, uid, uidLength)`. -/
def readPassiveTargetID (card : Option (List Nat)) (uid : List Nat) (uidLength : Nat) :
    Except Fault (Nat × List Nat × Nat) :=
  match card with
  | none => .ok (0, uid, uidLength)
  | some bytes => do
    let uid ← storeUid bytes 0 uid
    pure (1, uid, u8 bytes.length)

/-! ## Render loop (lines 157-167) -/

/-- Lines 158-162: the value `val` handed to `analogWrite` at counter `t`. -/
def sample (array1ID array2ID t : Nat) : Except Fault Nat := do
  let f ← readBuf formArray1 array1ID
  let val ← f t
  let g ← readBuf formArray2 array2ID
  let b ← g t
  pure (u32 (val + b))

/-- The loop of lines 157-167 from counter `t`, appending each `val` written to
the DAC to `out`. -/
def renderLoop (array1ID array2ID : Nat) : Nat → Nat → List Nat → Except Fault (List Nat)
  | 0, _, _ => .error .outOfFuel
  | fuel + 1, t, out =>
    if t < DURATION * RATE_11K then do
      let val ← sample array1ID array2ID t
      renderLoop array1ID array2ID fuel (u32 (t + 1)) (out ++ [val])
    else .ok out

/-- Lines 157-167: the values written to the DAC in one session, in order. -/
def render (array1ID array2ID : Nat) : Except Fault (List Nat) :=
  renderLoop array1ID array2ID (DURATION * RATE_11K + 1) 0 []

/-! ## Acquisition loop (lines 111-169) -/

/-- The selector run on a card read into freshly initialised arrays. -/
def selectorOf (identifier : List Nat) : Except Fault Selection := do
  let (_, uid, uidLength) ←
    readPassiveTargetID (some identifier) [0, 0, 0, 0, 0, 0, 0] 0
  selector uid uidLength [0, 0, 0, 0, 0, 0, 0, 0, 0, 0, 0, 0, 0, 0]

/-! ## Reference definitions, in the words of the specification -/

/-- Specification, data model: the nibble sequence splits each byte into its
high nibble then its low nibble, in order. -/
def nibbleSequence (identifier : List Nat) : List Nat :=
  identifier.flatMap (fun b => [b / 16, b % 16])

/-- Specification, selector step 2: the elements at positions 0, 2, 4, ... -/
def evenPositions : List Nat → List Nat
  | [] => []
  | [a] => [a]
  | a :: _ :: rest => a :: evenPositions rest

/-- Specification, selector step 2: the elements at positions 1, 3, 5, ... -/
def oddPositions : List Nat → List Nat
  | [] => []
  | [_] => []
  | _ :: b :: rest => b :: oddPositions rest

/-- Specification, selector steps 3 and 4: `indexA`. -/
def specIndexA (identifier : List Nat) : Nat :=
  (evenPositions (nibbleSequence identifier)).sum % 7

/-- Specification, selector steps 3 and 4: `indexB`. -/
def specIndexB (identifier : List Nat) : Nat :=
  (oddPositions (nibbleSequence identifier)).sum % 7

/-! ## Closed forms used in the proofs -/

/-- The high nibble as line 135 computes it. -/
def hiNib (byte : Nat) : Nat := (byte &&& 0xF0) >>> 4

/-- The low nibble as line 136 computes it. -/
def loNib (byte : Nat) : Nat := byte &&& 0x0F

/-- An 8-bit accumulator after adding the entries of `xs` in order. -/
def accumulate8 (xs : List Nat) : Nat := xs.foldl (fun acc x => u8 (acc + x)) 0

/-- The locals after lines 131-150 for a card of at most 7 bytes, written out
with the 8-bit accumulators kept as such. -/
def selectionOf (identifier : List Nat) : Selection :=
  { uidNibbles :=
      identifier.flatMap (fun b => [hiNib b, loNib b]) ++
        List.replicate (14 - 2 * identifier.length) 0
    nibbleIndex := 2 * identifier.length
    evenNibbleSum := accumulate8 (identifier.map hiNib)
    oddNibbleSum := accumulate8 (identifier.map loNib)
    array1ID := u8 (accumulate8 (identifier.map hiNib) % 7)
    array2ID := u8 (accumulate8 (identifier.map loNib) % 7) }

/-- A formula returns an unsigned 32-bit value at `t`. -/
def Returns32 (f : formulaArrayType) (t : Nat) : Prop := ∃ v, f t = .ok v ∧ v < 2 ^ 32

/-- The value of `sample` where it is defined (0 where it faults). -/
def sampleValue (array1ID array2ID t : Nat) : Nat :=
  match sample array1ID array2ID t with
  | .ok v => v
  | .error _ => 0

/-! ## Pacing of the render loop (lines 157-167) -/

/-- The loop of lines 157-167 with its pacing kept: besides the values written
to the DAC, the microseconds requested from `delayMicroseconds` (line 166) so
far. -/
def renderTimedLoop (array1ID array2ID : Nat) :
    Nat → Nat → List Nat → Nat → Except Fault (List Nat × Nat)
  | 0, _, _, _ => .error .outOfFuel
  | fuel + 1, t, out, elapsed =>
    if t < DURATION * RATE_11K then do
      let val ← sample array1ID array2ID t
      renderTimedLoop array1ID array2ID fuel (u32 (t + 1)) (out ++ [val])
        (elapsed + DELAY_11K)
    else .ok (out, elapsed)

/-- Lines 157-167: the values written to the DAC in one session and the sum of
the delays requested between them, in microseconds. -/
def renderTimed (array1ID array2ID : Nat) : Except Fault (List Nat × Nat) :=
  renderTimedLoop array1ID array2ID (DURATION * RATE_11K + 1) 0 [] 0

/-- The constant right operands of `>>` in the formulas of lines 59-72, in
source order (`form8` and `form9` shift by a computed amount instead). -/
def constantShiftAmounts : List Nat :=
  [6, 2, 4, 14, 3, 9, 2, 13, 6, 7, 10, 16, 8, 10, 5, 14, 12, 9, 13, 12, 6, 4, 10, 14, 10]

/-! ## The second entry point, `src/src/main.cpp`

Translated from `main.cpp` on its own: its formulas (lines 63-77), its tables
(lines 105-113), its selector (lines 135-154) and its render loop (lines
161-171, bound `30 * 11025`, delay `RATE_11K` which this file defines as 90). -/

namespace MainCpp

/-- The delay constant of `main.cpp` line 53 (named `RATE_11K` there). -/
def RATE_11K : Nat := 90

/-- Source text: `(t&t>>6)|(t>>2)%256` -/
def form1 (t : Nat) : Except Fault Nat := do
  let a ← shr t 6
  let b ← shr t 2
  let c ← umod b 256
  pure ((t &&& a) ||| c)

/-- Source text: `2*t&((t>>4)|(t>>14))%128` -/
def form2 (t : Nat) : Except Fault Nat := do
  let a ← shr t 4
  let b ← shr t 14
  let c ← umod (a ||| b) 128
  pure (umul 2 t &&& c)

/-- Source text: `t * ((t>>3|t>>9)&64&t>>2)` -/
def form5 (t : Nat) : Except Fault Nat := do
  let a ← shr t 3
  let b ← shr t 9
  let c ← shr t 2
  pure (umul t (((a ||| b) &&& 64) &&& c))

/-- Source text: `7*(t%((t>>13)&(t>>6)))` -/
def form6 (t : Nat) : Except Fault Nat := do
  let a ← shr t 13
  let b ← shr t 6
  let c ← umod t (a &&& b)
  pure (umul 7 c)

/-- Source text: `(t*5&t>>7)|(t*3&t>>10)` -/
def form7 (t : Nat) : Except Fault Nat := do
  let a ← shr t 7
  let b ← shr t 10
  pure ((umul t 5 &&& a) ||| (umul t 3 &&& b))

/-- Source text: `(t*t/256)&( t>>((t/1024)%16))` -/
def form8 (t : Nat) : Except Fault Nat := do
  let a ← udiv (umul t t) 256
  let b ← udiv t 1024
  let c ← umod b 16
  let d ← shr t c
  pure (a &&& d)

/-- Source text: `(t*t/128)&(t>>((t/256)%16))` -/
def form9 (t : Nat) : Except Fault Nat := do
  let a ← udiv (umul t t) 128
  let b ← udiv t 256
  let c ← umod b 16
  let d ← shr t c
  pure (a &&& d)

/-- Source text: `2*((t&2*t>>16)|(t&2*t>>8))%128` -/
def form11 (t : Nat) : Except Fault Nat := do
  let a ← shr (umul 2 t) 16
  let b ← shr (umul 2 t) 8
  umod (umul 2 ((t &&& a) ||| (t &&& b))) 128

/-- Source text: `2*(t*(t>>10|t>>5)&16)` -/
def form12 (t : Nat) : Except Fault Nat := do
  let a ← shr t 10
  let b ← shr t 5
  pure (umul 2 (umul t (a ||| b) &&& 16))

/-- Source text: `2*(2*t*(t>>14|t>>12)&16)` -/
def form13 (t : Nat) : Except Fault Nat := do
  let a ← shr t 14
  let b ← shr t 12
  pure (umul 2 (umul (umul 2 t) (a ||| b) &&& 16))

/-- Source text: `2*(t*(t>>9|t>>13)&16)` -/
def form14 (t : Nat) : Except Fault Nat := do
  let a ← shr t 9
  let b ← shr t 13
  pure (umul 2 (umul t (a ||| b) &&& 16))

/-- Source text: `2*(t*(t>>12|t>>6)&32)` -/
def form15 (t : Nat) : Except Fault Nat := do
  let a ← shr t 12
  let b ← shr t 6
  pure (umul 2 (umul t (a ||| b) &&& 32))

/-- Source text: `2*(t*(3*t>>4|2*t>>10)&32)` -/
def form16 (t : Nat) : Except Fault Nat := do
  let a ← shr (umul 3 t) 4
  let b ← shr (umul 2 t) 10
  pure (umul 2 (umul t (a ||| b) &&& 32))

/-- Source text: `8*(t*(t>>14|t>>10)&8)` -/
def form17 (t : Nat) : Except Fault Nat := do
  let a ← shr t 14
  let b ← shr t 10
  pure (umul 8 (umul t (a ||| b) &&& 8))

/-- The table `formArray1` of `main.cpp` (lines 105-108). -/
def formArray1 : List formulaArrayType :=
  [form1, form2, form5, form7, form11, form15, form16]

/-- The table `formArray2` of `main.cpp` (lines 110-113). -/
def formArray2 : List formulaArrayType :=
  [form6, form8, form9, form12, form13, form14, form17]

/-- The loop of `main.cpp` lines 137-141. -/
def extractLoop (uid : List Nat) (uidLength : Nat) :
    Nat → Nat → List Nat → Nat → Except Fault (List Nat × Nat)
  | 0, _, _, _ => .error .outOfFuel
  | fuel + 1, i, uidNibbles, nibbleIndex =>
    if i < uidLength then do
      let byte ← readBuf uid i
      let uidNibbles ← writeBuf uidNibbles nibbleIndex ((byte &&& 0xF0) >>> 4)
      let nibbleIndex := u8 (nibbleIndex + 1)
      let uidNibbles ← writeBuf uidNibbles nibbleIndex (byte &&& 0x0F)
      let nibbleIndex := u8 (nibbleIndex + 1)
      extractLoop uid uidLength fuel (u8 (i + 1)) uidNibbles nibbleIndex
    else .ok (uidNibbles, nibbleIndex)

/-- Lines 135-141 of `main.cpp`. -/
def extractNibbles (uid : List Nat) (uidLength : Nat) (uidNibbles : List Nat) :
    Except Fault (List Nat × Nat) :=
  extractLoop uid uidLength 256 0 uidNibbles 0

/-- The loop of `main.cpp` lines 147-150. -/
def sumLoop (uidNibbles : List Nat) (uidLength : Nat) :
    Nat → Nat → Nat → Nat → Except Fault (Nat × Nat)
  | 0, _, _, _ => .error .outOfFuel
  | fuel + 1, i, evenNibbleSum, oddNibbleSum =>
    if i < uidLength * 2 then do
      let e ← readBuf uidNibbles i
      let evenNibbleSum := u8 (evenNibbleSum + e)
      let o ← readBuf uidNibbles (i + 1)
      let oddNibbleSum := u8 (oddNibbleSum + o)
      sumLoop uidNibbles uidLength fuel (u8 (i + 2)) evenNibbleSum oddNibbleSum
    else .ok (evenNibbleSum, oddNibbleSum)

/-- Lines 145-150 of `main.cpp`. -/
def nibbleSums (uidNibbles : List Nat) (uidLength : Nat) : Except Fault (Nat × Nat) :=
  sumLoop uidNibbles uidLength 256 0 0 0

/-- Lines 135-154 of `main.cpp`. -/
def selector (uid : List Nat) (uidLength : Nat) (uidNibbles : List Nat) :
    Except Fault Selection := do
  let (uidNibbles, nibbleIndex) ← extractNibbles uid uidLength uidNibbles
  let (evenNibbleSum, oddNibbleSum) ← nibbleSums uidNibbles uidLength
  let array1ID := u8 (evenNibbleSum % 7)
  let array2ID := u8 (oddNibbleSum % 7)
  pure ⟨uidNibbles, nibbleIndex, evenNibbleSum, oddNibbleSum, array1ID, array2ID⟩

/-- The selector of `main.cpp` run on a card read into freshly initialised
arrays (lines 117-125 and 135-154). -/
def selectorOf (identifier : List Nat) : Except Fault Selection := do
  let (_, uid, uidLength) ←
    readPassiveTargetID (some identifier) [0, 0, 0, 0, 0, 0, 0] 0
  selector uid uidLength [0, 0, 0, 0, 0, 0, 0, 0, 0, 0, 0, 0, 0, 0]

/-- Lines 162-166 of `main.cpp`: the value handed to `analogWrite`. -/
def sample (array1ID array2ID t : Nat) : Except Fault Nat := do
  let f ← readBuf formArray1 array1ID
  let val ← f t
  let g ← readBuf formArray2 array2ID
  let b ← g t
  pure (u32 (val + b))

/-- The loop of `main.cpp` lines 161-171, bound `30 * 11025`. -/
def renderLoop (array1ID array2ID : Nat) : Nat → Nat → List Nat → Except Fault (List Nat)
  | 0, _, _ => .error .outOfFuel
  | fuel + 1, t, out =>
    if t < 30 * 11025 then do
      let val ← sample array1ID array2ID t
      renderLoop array1ID array2ID fuel (u32 (t + 1)) (out ++ [val])
    else .ok out

/-- Lines 161-171 of `main.cpp`: the values written to the DAC in one session. -/
def render (array1ID array2ID : Nat) : Except Fault (List Nat) :=
  renderLoop array1ID array2ID (30 * 11025 + 1) 0 []

end MainCpp

/-! ## Buffer and loop lemmas -/

theorem set_at_length (pre post : List Nat) (x v : Nat) :
    (pre ++ x :: post).set pre.length v = pre ++ v :: post := by
  induction pre with
  | nil => rfl
  | cons a as ih => simp [ih]

theorem writeBuf_at_length (pre post : List Nat) (x v : Nat) :
    writeBuf (pre ++ x :: post) pre.length v = .ok (pre ++ v :: post) := by
  unfold writeBuf
  rw [if_pos (by simp), set_at_length]

theorem readBuf_at_length {α : Type} (pre post : List α) (x : α) :
    readBuf (pre ++ x :: post) pre.length = .ok x := by
  have h : (pre ++ x :: post)[pre.length]? = some x := by
    induction pre with
    | nil => simp
    | cons a as ih => simpa using ih
  unfold readBuf
  rw [h]

theorem u8_of_lt {n : Nat} (h : n < 256) : u8 n = n := Nat.mod_eq_of_lt h

theorem storeUid_zeros (bytes : List Nat) :
    ∀ (pre : List Nat) (n : Nat), bytes.length ≤ n →
      storeUid bytes pre.length (pre ++ List.replicate n 0) =
        .ok (pre ++ bytes ++ List.replicate (n - bytes.length) 0) := by
  induction bytes with
  | nil => intro pre n _; simp [storeUid]
  | cons b bs ih =>
    intro pre n h
    obtain ⟨m, rfl⟩ : ∃ m, n = m + 1 := ⟨n - 1, by simp at h; omega⟩
    have h' : bs.length ≤ m := by simp at h; omega
    have step := ih (pre ++ [b]) m h'
    simp only [List.length_append, List.length_singleton, List.append_assoc,
      List.singleton_append] at step
    simp only [storeUid, List.replicate_succ, writeBuf_at_length, bind, Except.bind, step,
      List.length_cons, Nat.add_sub_add_right, List.append_assoc, List.cons_append]

theorem extractLoop_closed (pad : List Nat) (todo : List Nat) :
    ∀ (done pre : List Nat) (n fuel : Nat),
      pre.length = 2 * done.length → 2 * todo.length ≤ n → todo.length < fuel →
      done.length + todo.length ≤ 127 →
      extractLoop (done ++ todo ++ pad) (done.length + todo.length) fuel done.length
          (pre ++ List.replicate n 0) (2 * done.length) =
        .ok (pre ++ todo.flatMap (fun b => [hiNib b, loNib b]) ++
              List.replicate (n - 2 * todo.length) 0,
             2 * (done.length + todo.length)) := by
  induction todo with
  | nil =>
    intro done pre n fuel _ _ hf _
    obtain ⟨k, rfl⟩ : ∃ k, fuel = k + 1 := ⟨fuel - 1, by omega⟩
    simp [extractLoop]
  | cons b bs ih =>
    intro done pre n fuel hpre hn hf hL
    obtain ⟨k, rfl⟩ : ∃ k, fuel = k + 1 := ⟨fuel - 1, by omega⟩
    simp only [List.length_cons] at hn hf hL
    obtain ⟨m, rfl⟩ : ∃ m, n = m + 2 := ⟨n - 2, by omega⟩
    have step := ih (done ++ [b]) (pre ++ [hiNib b, loNib b]) m k
      (by simp [hpre]; omega) (by omega) (by omega) (by simp; omega)
    simp only [List.length_append, List.length_singleton, List.append_assoc,
      List.singleton_append, List.cons_append, List.nil_append] at step
    have hw1 : writeBuf (pre ++ 0 :: 0 :: List.replicate m 0) (2 * done.length)
        ((b &&& 0xF0) >>> 4) = .ok (pre ++ hiNib b :: 0 :: List.replicate m 0) := by
      rw [← hpre]; exact writeBuf_at_length _ _ _ _
    have hw2 : writeBuf (pre ++ hiNib b :: 0 :: List.replicate m 0) (2 * done.length + 1)
        (b &&& 0x0F) = .ok (pre ++ hiNib b :: loNib b :: List.replicate m 0) := by
      have := writeBuf_at_length (pre ++ [hiNib b]) (List.replicate m 0) 0 (loNib b)
      simpa [hpre, loNib] using this
    have hr : readBuf (done ++ b :: (bs ++ pad)) done.length = .ok b :=
      readBuf_at_length done (bs ++ pad) b
    have e1 : u8 (2 * done.length + 1) = 2 * done.length + 1 := u8_of_lt (by omega)
    have e2 : u8 (2 * done.length + 1 + 1) = 2 * (done.length + 1) := by
      rw [u8_of_lt (by omega)]; omega
    have e3 : u8 (done.length + 1) = done.length + 1 := u8_of_lt (by omega)
    have hlt : done.length < done.length + (bs.length + 1) := by omega
    have hidx : done.length + (bs.length + 1) = done.length + 1 + bs.length := by omega
    simp only [extractLoop, List.length_cons, hlt, if_true, List.append_assoc, hr, bind,
      Except.bind, List.replicate_succ, hw1, hw2, e1, e2, e3, List.cons_append] at step ⊢
    have hm : m + 2 - 2 * (bs.length + 1) = m - 2 * bs.length := by omega
    rw [hidx, step, hm]
    simp



theorem sumLoop_closed (post : List Nat) (todo : List Nat) :
    ∀ (pre : List Nat) (j fuel e o : Nat),
      pre.length = 2 * j → todo.length < fuel → j + todo.length ≤ 127 →
      sumLoop (pre ++ todo.flatMap (fun b => [hiNib b, loNib b]) ++ post)
          (j + todo.length) fuel (2 * j) e o =
        .ok ((todo.map hiNib).foldl (fun acc x => u8 (acc + x)) e,
             (todo.map loNib).foldl (fun acc x => u8 (acc + x)) o) := by
  induction todo with
  | nil =>
    intro pre j fuel e o _ hf _
    obtain ⟨k, rfl⟩ : ∃ k, fuel = k + 1 := ⟨fuel - 1, by omega⟩
    have hlt : ¬ (2 * j < j * 2) := by omega
    simp [sumLoop, hlt]
  | cons b bs ih =>
    intro pre j fuel e o hpre hf hL
    obtain ⟨k, rfl⟩ : ∃ k, fuel = k + 1 := ⟨fuel - 1, by omega⟩
    simp only [List.length_cons] at hf hL
    have step := ih (pre ++ [hiNib b, loNib b]) (j + 1) k (u8 (e + hiNib b)) (u8 (o + loNib b))
      (by simp [hpre]; omega) (by omega) (by omega)
    simp only [List.append_assoc, List.cons_append, List.nil_append] at step
    have hr1 : readBuf (pre ++ hiNib b :: loNib b ::
        (bs.flatMap (fun b => [hiNib b, loNib b]) ++ post)) (2 * j) = .ok (hiNib b) := by
      rw [← hpre]; exact readBuf_at_length _ _ _
    have hr2 : readBuf (pre ++ hiNib b :: loNib b ::
        (bs.flatMap (fun b => [hiNib b, loNib b]) ++ post)) (2 * j + 1) = .ok (loNib b) := by
      have := readBuf_at_length (pre ++ [hiNib b])
        (bs.flatMap (fun b => [hiNib b, loNib b]) ++ post) (loNib b)
      simpa [hpre] using this
    have e1 : u8 (2 * j + 2) = 2 * (j + 1) := by rw [u8_of_lt (by omega)]; omega
    have hlt : 2 * j < (j + (bs.length + 1)) * 2 := by omega
    have hidx : j + (bs.length + 1) = j + 1 + bs.length := by omega
    simp only [sumLoop, List.length_cons, hlt, if_true, List.flatMap_cons, List.append_assoc,
      List.cons_append, List.nil_append, hr1, hr2, bind, Except.bind, e1, List.map_cons,
      List.foldl_cons]
    rw [hidx, step]

theorem foldl_u8_exact (xs : List Nat) :
    ∀ acc, acc + xs.sum < 256 → xs.foldl (fun a x => u8 (a + x)) acc = acc + xs.sum := by
  induction xs with
  | nil => intro acc _; simp
  | cons x xs ih =>
    intro acc h
    simp only [List.sum_cons] at h
    simp only [List.foldl_cons, List.sum_cons]
    rw [u8_of_lt (by omega), ih (acc + x) (by omega)]
    omega

theorem hiNib_le (b : Nat) : hiNib b ≤ 15 := by
  unfold hiNib
  rw [Nat.shiftRight_eq_div_pow]
  have : b &&& 0xF0 ≤ 0xF0 := Nat.and_le_right
  omega

theorem loNib_le (b : Nat) : loNib b ≤ 15 := Nat.and_le_right

theorem sum_map_le (f : Nat → Nat) (c : Nat) (hf : ∀ b, f b ≤ c) (xs : List Nat) :
    (xs.map f).sum ≤ c * xs.length := by
  induction xs with
  | nil => simp
  | cons x xs ih =>
    have := hf x
    simp only [List.map_cons, List.sum_cons, List.length_cons, Nat.mul_add, Nat.mul_one]
    omega

theorem selectorOf_closed (identifier : List Nat) (h : identifier.length ≤ 7) :
    selectorOf identifier = .ok (selectionOf identifier) := by
  have hz7 : [0, 0, 0, 0, 0, 0, 0] = [] ++ List.replicate 7 0 := rfl
  have hz14 : [0, 0, 0, 0, 0, 0, 0, 0, 0, 0, 0, 0, 0, 0] = [] ++ List.replicate 14 0 := rfl
  have hstore := storeUid_zeros identifier [] 7 h
  have hext := extractLoop_closed (List.replicate (7 - identifier.length) 0) identifier [] []
    14 256 rfl (by omega) (by omega) (by simp; omega)
  have hsum := sumLoop_closed (List.replicate (14 - 2 * identifier.length) 0) identifier []
    0 256 0 0 rfl (by omega) (by omega)
  simp only [List.length_nil, List.nil_append, Nat.zero_add, Nat.mul_zero] at hstore hext hsum
  have hlen : u8 identifier.length = identifier.length := u8_of_lt (by omega)
  unfold selectorOf
  rw [hz14, hz7]
  simp only [readPassiveTargetID, List.nil_append, hstore, bind,
    Except.bind, pure, Except.pure, hlen, selector, extractNibbles, hext, nibbleSums, hsum,
    selectionOf, accumulate8]

set_option maxRecDepth 100000 in
theorem hiNib_byte : ∀ b, b < 256 → hiNib b = b / 16 := by decide

set_option maxRecDepth 100000 in
theorem loNib_byte : ∀ b, b < 256 → loNib b = b % 16 := by decide

theorem codeNibbles_eq_nibbleSequence (identifier : List Nat)
    (hbytes : ∀ b ∈ identifier, b < 256) :
    identifier.flatMap (fun b => [hiNib b, loNib b]) = nibbleSequence identifier := by
  induction identifier with
  | nil => rfl
  | cons b bs ih =>
    have hb : b < 256 := hbytes b (by simp)
    have hbs : ∀ c ∈ bs, c < 256 := fun c hc => hbytes c (by simp [hc])
    simp only [nibbleSequence, List.flatMap_cons] at ih ⊢
    rw [ih hbs, hiNib_byte b hb, loNib_byte b hb]

theorem evenPositions_pairs (f g : Nat → Nat) (xs : List Nat) :
    evenPositions (xs.flatMap (fun b => [f b, g b])) = xs.map f := by
  induction xs with
  | nil => rfl
  | cons x xs ih =>
    show evenPositions (f x :: g x :: xs.flatMap (fun b => [f b, g b])) = f x :: xs.map f
    rw [evenPositions, ih]

theorem oddPositions_pairs (f g : Nat → Nat) (xs : List Nat) :
    oddPositions (xs.flatMap (fun b => [f b, g b])) = xs.map g := by
  induction xs with
  | nil => rfl
  | cons x xs ih =>
    show oddPositions (f x :: g x :: xs.flatMap (fun b => [f b, g b])) = g x :: xs.map g
    rw [oddPositions, ih]

theorem length_pairs (f g : Nat → Nat) (xs : List Nat) :
    (xs.flatMap (fun b => [f b, g b])).length = 2 * xs.length := by
  induction xs with
  | nil => rfl
  | cons x xs ih => simp [List.flatMap_cons, ih]; omega

theorem accumulate8_hi (identifier : List Nat) (h : identifier.length ≤ 7) :
    accumulate8 (identifier.map hiNib) = (identifier.map hiNib).sum := by
  have hs := sum_map_le hiNib 15 hiNib_le identifier
  have := foldl_u8_exact (identifier.map hiNib) 0 (by omega)
  simpa [accumulate8] using this

theorem accumulate8_lo (identifier : List Nat) (h : identifier.length ≤ 7) :
    accumulate8 (identifier.map loNib) = (identifier.map loNib).sum := by
  have hs := sum_map_le loNib 15 loNib_le identifier
  have := foldl_u8_exact (identifier.map loNib) 0 (by omega)
  simpa [accumulate8] using this

theorem u8_mod7 (n : Nat) : u8 (n % 7) = n % 7 :=
  u8_of_lt (by have := Nat.mod_lt n (show 0 < 7 by decide); omega)

/-- C1: for every identifier of at most 7 bytes (so of 4 or of 7) the selector
returns, and both indices are below 7, the length of both formula tables. -/
theorem selector_indices_in_range (identifier : List Nat) (hlen : identifier.length ≤ 7) :
    ∃ s, selectorOf identifier = .ok s ∧
      s.array1ID < 7 ∧ s.array2ID < 7 ∧
      s.array1ID < formArray1.length ∧ s.array2ID < formArray2.length := by
  refine ⟨selectionOf identifier, selectorOf_closed identifier hlen, ?_, ?_, ?_, ?_⟩ <;>
    simp only [selectionOf, u8_mod7, formArray1, formArray2, List.length_cons,
      List.length_nil] <;>
    exact Nat.mod_lt _ (by decide)

/-- Witness of C1 on the 4-byte identifier of the specification's scenario. -/
theorem selector_indices_in_range_witness :
    ∃ s, selectorOf [0x04, 0x3A, 0x9F, 0x12] = .ok s ∧
      s.array1ID < 7 ∧ s.array2ID < 7 ∧
      s.array1ID < formArray1.length ∧ s.array2ID < formArray2.length :=
  selector_indices_in_range [0x04, 0x3A, 0x9F, 0x12] (by decide)

/-- C2: for every identifier of at most 7 bytes the two 8-bit accumulators
hold the exact sums of the even-position and odd-position nibbles (at most
15 per byte, so at most 105 and never wrapped), and the indices are these sums
modulo 7. -/
theorem selector_exact_sums (identifier : List Nat) (hlen : identifier.length ≤ 7)
    (hbytes : ∀ b ∈ identifier, b < 256) :
    ∃ s, selectorOf identifier = .ok s ∧
      s.uidNibbles.take (2 * identifier.length) = nibbleSequence identifier ∧
      s.evenNibbleSum = (evenPositions (nibbleSequence identifier)).sum ∧
      s.oddNibbleSum = (oddPositions (nibbleSequence identifier)).sum ∧
      s.evenNibbleSum ≤ 15 * identifier.length ∧
      s.oddNibbleSum ≤ 15 * identifier.length ∧
      15 * identifier.length ≤ 105 ∧
      s.array1ID = specIndexA identifier ∧ s.array2ID = specIndexB identifier := by
  have hseq := codeNibbles_eq_nibbleSequence identifier hbytes
  have hev := evenPositions_pairs hiNib loNib identifier
  have hod := oddPositions_pairs hiNib loNib identifier
  rw [hseq] at hev hod
  have hl := length_pairs hiNib loNib identifier
  rw [hseq] at hl
  refine ⟨selectionOf identifier, selectorOf_closed identifier hlen, ?_, ?_, ?_, ?_, ?_, ?_,
    ?_, ?_⟩
  · simp only [selectionOf, hseq]
    rw [← hl, List.take_left]
  · simp only [selectionOf, accumulate8_hi identifier hlen, hev]
  · simp only [selectionOf, accumulate8_lo identifier hlen, hod]
  · simp only [selectionOf, accumulate8_hi identifier hlen]
    exact sum_map_le hiNib 15 hiNib_le identifier
  · simp only [selectionOf, accumulate8_lo identifier hlen]
    exact sum_map_le loNib 15 loNib_le identifier
  · omega
  · simp only [selectionOf, accumulate8_hi identifier hlen, u8_mod7, specIndexA, hev]
  · simp only [selectionOf, accumulate8_lo identifier hlen, u8_mod7, specIndexB, hod]

/-- Witness of C2 on a 7-byte identifier. -/
theorem selector_exact_sums_witness :
    ∃ s, selectorOf [0x04, 0xA2, 0x5B, 0xC1, 0x7F, 0x33, 0x80] = .ok s ∧
      s.uidNibbles.take (2 * [0x04, 0xA2, 0x5B, 0xC1, 0x7F, 0x33, 0x80].length) =
        nibbleSequence [0x04, 0xA2, 0x5B, 0xC1, 0x7F, 0x33, 0x80] ∧
      s.evenNibbleSum =
        (evenPositions (nibbleSequence [0x04, 0xA2, 0x5B, 0xC1, 0x7F, 0x33, 0x80])).sum ∧
      s.oddNibbleSum =
        (oddPositions (nibbleSequence [0x04, 0xA2, 0x5B, 0xC1, 0x7F, 0x33, 0x80])).sum ∧
      s.evenNibbleSum ≤ 15 * [0x04, 0xA2, 0x5B, 0xC1, 0x7F, 0x33, 0x80].length ∧
      s.oddNibbleSum ≤ 15 * [0x04, 0xA2, 0x5B, 0xC1, 0x7F, 0x33, 0x80].length ∧
      15 * [0x04, 0xA2, 0x5B, 0xC1, 0x7F, 0x33, 0x80].length ≤ 105 ∧
      s.array1ID = specIndexA [0x04, 0xA2, 0x5B, 0xC1, 0x7F, 0x33, 0x80] ∧
      s.array2ID = specIndexB [0x04, 0xA2, 0x5B, 0xC1, 0x7F, 0x33, 0x80] :=
  selector_exact_sums [0x04, 0xA2, 0x5B, 0xC1, 0x7F, 0x33, 0x80] (by decide) (by decide)

/-- C3: the identifier `[0x04, 0x3A, 0x9F, 0x12]` gives the nibbles
`[0,4,3,10,9,15,1,2]`, the sums 13 and 31 and the indices 6 and 3, which select
`form16` from `formArray1` and `form12` from `formArray2`. -/
theorem scenario_one :
    selectorOf [0x04, 0x3A, 0x9F, 0x12] =
      .ok { uidNibbles := [0, 4, 3, 10, 9, 15, 1, 2, 0, 0, 0, 0, 0, 0]
            nibbleIndex := 8
            evenNibbleSum := 13
            oddNibbleSum := 31
            array1ID := 6
            array2ID := 3 } ∧
    nibbleSequence [0x04, 0x3A, 0x9F, 0x12] = [0, 4, 3, 10, 9, 15, 1, 2] ∧
    evenPositions [0, 4, 3, 10, 9, 15, 1, 2] = [0, 3, 9, 1] ∧
    oddPositions [0, 4, 3, 10, 9, 15, 1, 2] = [4, 10, 15, 2] ∧
    13 % 7 = 6 ∧ 31 % 7 = 3 ∧
    readBuf formArray1 6 = .ok form16 ∧ readBuf formArray2 3 = .ok form12 :=
  ⟨by decide, by decide, by decide, by decide, by decide, by decide, rfl, rfl⟩


/-! ## The formulas -/

theorem u32_lt (n : Nat) : u32 n < 2 ^ 32 := Nat.mod_lt n (by decide)

theorem umul_lt (a b : Nat) : umul a b < 2 ^ 32 := u32_lt (a * b)

theorem and_lt_left {a : Nat} (b : Nat) (h : a < 2 ^ 32) : a &&& b < 2 ^ 32 :=
  Nat.lt_of_le_of_lt Nat.and_le_left h

theorem form1_eq (t : Nat) : form1 t = .ok ((t &&& t >>> 6) ||| (t >>> 2) % 256) := rfl

theorem form2_eq (t : Nat) :
    form2 t = .ok (umul 2 t &&& (t >>> 4 ||| t >>> 14) % 128) := rfl

theorem form5_eq (t : Nat) :
    form5 t = .ok (umul t ((t >>> 3 ||| t >>> 9) &&& 64 &&& t >>> 2)) := rfl

theorem form7_eq (t : Nat) :
    form7 t = .ok (umul t 5 &&& t >>> 7 ||| umul t 3 &&& t >>> 10) := rfl

theorem form8_eq (t : Nat) :
    form8 t = .ok (umul t t / 256 &&& t >>> (t / 1024 % 16)) := by
  have h : t / 1024 % 16 < 32 := by omega
  simp [form8, udiv, umod, shr, h, bind, Except.bind, pure, Except.pure]

theorem form9_eq (t : Nat) :
    form9 t = .ok (umul t t / 128 &&& t >>> (t / 256 % 16)) := by
  have h : t / 256 % 16 < 32 := by omega
  simp [form9, udiv, umod, shr, h, bind, Except.bind, pure, Except.pure]

theorem form11_eq (t : Nat) :
    form11 t = .ok (umul 2 (t &&& umul 2 t >>> 16 ||| t &&& umul 2 t >>> 8) % 128) := rfl

theorem form12_eq (t : Nat) :
    form12 t = .ok (umul 2 (umul t (t >>> 10 ||| t >>> 5) &&& 16)) := rfl

theorem form13_eq (t : Nat) :
    form13 t = .ok (umul 2 (umul (umul 2 t) (t >>> 14 ||| t >>> 12) &&& 16)) := rfl

theorem form14_eq (t : Nat) :
    form14 t = .ok (umul 2 (umul t (t >>> 9 ||| t >>> 13) &&& 16)) := rfl

theorem form15_eq (t : Nat) :
    form15 t = .ok (umul 2 (umul t (t >>> 12 ||| t >>> 6) &&& 32)) := rfl

theorem form16_eq (t : Nat) :
    form16 t = .ok (umul 2 (umul t (umul 3 t >>> 4 ||| umul 2 t >>> 10) &&& 32)) := rfl

theorem form17_eq (t : Nat) :
    form17 t = .ok (umul 8 (umul t (t >>> 14 ||| t >>> 10) &&& 8)) := rfl

theorem form6_eq (t : Nat) :
    form6 t = if t >>> 13 &&& t >>> 6 = 0 then .error .divByZero
      else .ok (umul 7 (t % (t >>> 13 &&& t >>> 6))) := by
  by_cases h : t >>> 13 &&& t >>> 6 = 0 <;>
    simp [form6, umod, shr, h, bind, Except.bind, pure, Except.pure]

theorem form1_total (t : Nat) (ht : t < 2 ^ 32) : Returns32 form1 t :=
  ⟨_, form1_eq t, Nat.or_lt_two_pow (and_lt_left _ ht)
    (Nat.lt_of_lt_of_le (Nat.mod_lt _ (by decide)) (by decide))⟩

theorem form2_total (t : Nat) : Returns32 form2 t :=
  ⟨_, form2_eq t, and_lt_left _ (umul_lt _ _)⟩

theorem form5_total (t : Nat) : Returns32 form5 t := ⟨_, form5_eq t, umul_lt _ _⟩

theorem form7_total (t : Nat) : Returns32 form7 t :=
  ⟨_, form7_eq t, Nat.or_lt_two_pow (and_lt_left _ (umul_lt _ _)) (and_lt_left _ (umul_lt _ _))⟩

theorem form8_total (t : Nat) : Returns32 form8 t :=
  ⟨_, form8_eq t, and_lt_left _ (Nat.lt_of_le_of_lt (Nat.div_le_self _ _) (umul_lt _ _))⟩

theorem form9_total (t : Nat) : Returns32 form9 t :=
  ⟨_, form9_eq t, and_lt_left _ (Nat.lt_of_le_of_lt (Nat.div_le_self _ _) (umul_lt _ _))⟩

theorem form11_total (t : Nat) : Returns32 form11 t :=
  ⟨_, form11_eq t, Nat.lt_of_lt_of_le (Nat.mod_lt _ (by decide)) (by decide)⟩

theorem form12_total (t : Nat) : Returns32 form12 t := ⟨_, form12_eq t, umul_lt _ _⟩
theorem form13_total (t : Nat) : Returns32 form13 t := ⟨_, form13_eq t, umul_lt _ _⟩
theorem form14_total (t : Nat) : Returns32 form14 t := ⟨_, form14_eq t, umul_lt _ _⟩
theorem form15_total (t : Nat) : Returns32 form15 t := ⟨_, form15_eq t, umul_lt _ _⟩
theorem form16_total (t : Nat) : Returns32 form16 t := ⟨_, form16_eq t, umul_lt _ _⟩
theorem form17_total (t : Nat) : Returns32 form17 t := ⟨_, form17_eq t, umul_lt _ _⟩


theorem formArray1_total (a t : Nat) (ha : a < 7) (ht : t < 2 ^ 32) :
    ∃ f, readBuf formArray1 a = .ok f ∧ Returns32 f t := by
  interval_cases a
  · exact ⟨form1, rfl, form1_total t ht⟩
  · exact ⟨form2, rfl, form2_total t⟩
  · exact ⟨form5, rfl, form5_total t⟩
  · exact ⟨form7, rfl, form7_total t⟩
  · exact ⟨form11, rfl, form11_total t⟩
  · exact ⟨form15, rfl, form15_total t⟩
  · exact ⟨form16, rfl, form16_total t⟩

theorem formArray2_total (b t : Nat) (hb1 : 1 ≤ b) (hb : b < 7) :
    ∃ g, readBuf formArray2 b = .ok g ∧ Returns32 g t := by
  interval_cases b
  · exact ⟨form8, rfl, form8_total t⟩
  · exact ⟨form9, rfl, form9_total t⟩
  · exact ⟨form12, rfl, form12_total t⟩
  · exact ⟨form13, rfl, form13_total t⟩
  · exact ⟨form14, rfl, form14_total t⟩
  · exact ⟨form17, rfl, form17_total t⟩

theorem sample_of_ok {a b t : Nat} {f g : formulaArrayType} {va vb : Nat}
    (hf : readBuf formArray1 a = .ok f) (hva : f t = .ok va)
    (hg : readBuf formArray2 b = .ok g) (hvb : g t = .ok vb) :
    sample a b t = .ok (u32 (va + vb)) := by
  simp only [sample, hf, hva, hg, hvb, bind, Except.bind, pure, Except.pure]

theorem sample_nondegenerate (a b t : Nat) (ha : a < 7) (hb1 : 1 ≤ b) (hb : b < 7)
    (ht : t < 2 ^ 32) : ∃ v, sample a b t = .ok v ∧ v < 2 ^ 32 := by
  obtain ⟨f, hf, va, hva, _⟩ := formArray1_total a t ha ht
  obtain ⟨g, hg, vb, hvb, _⟩ := formArray2_total b t hb1 hb
  exact ⟨_, sample_of_ok hf hva hg hvb, u32_lt _⟩

theorem sampleValue_of_ok {a b t v : Nat} (h : sample a b t = .ok v) :
    sampleValue a b t = v := by
  simp only [sampleValue, h]

theorem renderLoop_closed (a b : Nat) :
    ∀ (fuel t : Nat) (out : List Nat), t ≤ DURATION * RATE_11K →
      DURATION * RATE_11K - t < fuel →
      (∀ k, t ≤ k → k < DURATION * RATE_11K → ∃ v, sample a b k = .ok v) →
      renderLoop a b fuel t out =
        .ok (out ++ (List.range' t (DURATION * RATE_11K - t)).map (sampleValue a b)) := by
  have hN : DURATION * RATE_11K = 110250 := by decide
  intro fuel
  induction fuel with
  | zero => intro t out _ hf _; omega
  | succ fuel ih =>
    intro t out ht hf hs
    by_cases hlt : t < DURATION * RATE_11K
    · obtain ⟨v, hv⟩ := hs t (Nat.le_refl t) hlt
      have hu : u32 (t + 1) = t + 1 := Nat.mod_eq_of_lt (by omega)
      obtain ⟨m, hm⟩ : ∃ m, DURATION * RATE_11K - t = m + 1 :=
        ⟨DURATION * RATE_11K - t - 1, by omega⟩
      have hm' : DURATION * RATE_11K - (t + 1) = m := by omega
      have step := ih (t + 1) (out ++ [v]) (by omega) (by omega)
        (fun k hk hkN => hs k (by omega) hkN)
      rw [hm'] at step
      simp only [renderLoop, hlt, if_true, hv, bind, Except.bind, hu, step, hm,
        List.range'_succ, List.map_cons, sampleValue_of_ok hv, List.append_assoc,
        List.singleton_append]
    · have ht' : DURATION * RATE_11K - t = 0 := by omega
      simp [renderLoop, hlt, ht']

theorem render_closed (a b : Nat)
    (hs : ∀ k, k < DURATION * RATE_11K → ∃ v, sample a b k = .ok v) :
    render a b = .ok ((List.range (DURATION * RATE_11K)).map (sampleValue a b)) := by
  have h := renderLoop_closed a b (DURATION * RATE_11K + 1) 0 [] (Nat.zero_le _) (by omega)
    (fun k _ hk => hs k hk)
  simpa [render, List.range_eq_range'] using h

/-- The render loop on every pair of indices that avoids `form6`: it ends, it
writes `DURATION * RATE_11K = 110250` values, and the `k`-th is `sample` at
counter `k`. -/
theorem render_nondegenerate (a b : Nat) (ha : a < 7) (hb1 : 1 ≤ b) (hb : b < 7) :
    ∃ out, render a b = .ok out ∧ out.length = 110250 ∧
      ∀ k, k < 110250 → ∃ v, out[k]? = some v ∧ sample a b k = .ok v := by
  have hN : DURATION * RATE_11K = 110250 := by decide
  have hs : ∀ k, k < DURATION * RATE_11K → ∃ v, sample a b k = .ok v := by
    intro k hk
    obtain ⟨v, hv, _⟩ := sample_nondegenerate a b k ha hb1 hb (by omega)
    exact ⟨v, hv⟩
  refine ⟨_, render_closed a b hs, by simp [hN], ?_⟩
  intro k hk
  obtain ⟨v, hv⟩ := hs k (by omega)
  refine ⟨v, ?_, hv⟩
  rw [List.getElem?_map, List.getElem?_range (by omega)]
  simp [sampleValue_of_ok hv]

/-- C5 (the code fails it): `form6` is not total.  At `t = 0`, the first counter
value of every session, its modulo operand `(t>>13)&(t>>6)` is 0 and the
evaluation takes a modulo by zero. -/
theorem form6_zero_faults :
    (0 >>> 13 &&& 0 >>> 6) = 0 ∧ form6 0 = .error .divByZero ∧ ¬ Returns32 form6 0 := by
  refine ⟨by decide, by decide, ?_⟩
  rintro ⟨v, hv, _⟩
  have h : form6 0 = .error .divByZero := by decide
  rw [h] at hv
  cases hv

/-- C4 (the code fails it): the identifier `[0x04, 0x3A, 0x9F, 0x16]` selects
the indices 6 and 0, and the session with these indices writes no sample: its
first one takes the modulo by zero of `form6`. -/
theorem render_degenerate_session :
    (selectorOf [0x04, 0x3A, 0x9F, 0x16]).map (fun s => (s.array1ID, s.array2ID)) =
      .ok (6, 0) ∧
    readBuf formArray2 0 = .ok form6 ∧
    sample 6 0 0 = .error .divByZero ∧
    render 6 0 = .error .divByZero :=
  ⟨by decide, rfl, by decide, by decide⟩

/-- C6: the modulo operand of `form6` is 0 for every `t < 8192`, so `form6`
faults there; `formArray2[0]` is `form6`, so every session with `indexB = 0`
faults on its first sample; where the operand `d` is not 0, `form6 t` is
`7 * (t mod d)`. -/
theorem form6_degenerate :
    (∀ t, t < 8192 → (t >>> 13 &&& t >>> 6) = 0 ∧ form6 t = .error .divByZero) ∧
    readBuf formArray2 0 = .ok form6 ∧
    (∀ a, a < 7 → sample a 0 0 = .error .divByZero ∧ render a 0 = .error .divByZero) ∧
    (∀ t, t < 2 ^ 32 → (t >>> 13 &&& t >>> 6) ≠ 0 →
      form6 t = .ok (7 * (t % (t >>> 13 &&& t >>> 6)))) := by
  refine ⟨?_, rfl, ?_, ?_⟩
  · intro t ht
    have h13 : t >>> 13 = 0 := by
      rw [Nat.shiftRight_eq_div_pow]; exact Nat.div_eq_of_lt (by omega)
    have hd : (t >>> 13 &&& t >>> 6) = 0 := by rw [h13, Nat.zero_and]
    exact ⟨hd, by rw [form6_eq, if_pos hd]⟩
  · intro a ha
    interval_cases a <;> exact ⟨by decide, by decide⟩
  · intro t ht hd
    have h13 : t >>> 13 < 2 ^ 19 := by
      rw [Nat.shiftRight_eq_div_pow]; omega
    have hle : (t >>> 13 &&& t >>> 6) ≤ t >>> 13 := Nat.and_le_left
    have hmod : t % (t >>> 13 &&& t >>> 6) < (t >>> 13 &&& t >>> 6) :=
      Nat.mod_lt _ (Nat.pos_of_ne_zero hd)
    rw [form6_eq, if_neg hd]
    have : umul 7 (t % (t >>> 13 &&& t >>> 6)) = 7 * (t % (t >>> 13 &&& t >>> 6)) :=
      Nat.mod_eq_of_lt (by omega)
    rw [this]

/-- Witness of C6: a counter below 8192 and one with a non-zero operand. -/
theorem form6_degenerate_witness :
    ((100 >>> 13 &&& 100 >>> 6) = 0 ∧ form6 100 = .error .divByZero) ∧
    (sample 3 0 0 = .error .divByZero ∧ render 3 0 = .error .divByZero) ∧
    form6 8400 = .ok (7 * (8400 % (8400 >>> 13 &&& 8400 >>> 6))) :=
  ⟨form6_degenerate.1 100 (by decide), form6_degenerate.2.2.1 3 (by decide),
    form6_degenerate.2.2.2 8400 (by decide) (by decide)⟩

/-- C7: each of the 13 formulas other than `form6` returns an unsigned 32-bit
value at every unsigned 32-bit `t`, and for `indexA` in [0,7) and `indexB` in
[1,7) both table lookups are in bounds and the sample is the defined value
`(formArray1[indexA](t) + formArray2[indexB](t)) mod 2^32`. -/
theorem nondegenerate_total (a b t : Nat) (ha : a < 7) (hb1 : 1 ≤ b) (hb : b < 7)
    (ht : t < 2 ^ 32) :
    (Returns32 form1 t ∧ Returns32 form2 t ∧ Returns32 form5 t ∧ Returns32 form7 t ∧
      Returns32 form8 t ∧ Returns32 form9 t ∧ Returns32 form11 t ∧ Returns32 form12 t ∧
      Returns32 form13 t ∧ Returns32 form14 t ∧ Returns32 form15 t ∧ Returns32 form16 t ∧
      Returns32 form17 t) ∧
    ∃ f g va vb, readBuf formArray1 a = .ok f ∧ readBuf formArray2 b = .ok g ∧
      f t = .ok va ∧ g t = .ok vb ∧ va < 2 ^ 32 ∧ vb < 2 ^ 32 ∧
      sample a b t = .ok ((va + vb) % 2 ^ 32) := by
  refine ⟨⟨form1_total t ht, form2_total t, form5_total t, form7_total t, form8_total t,
    form9_total t, form11_total t, form12_total t, form13_total t, form14_total t,
    form15_total t, form16_total t, form17_total t⟩, ?_⟩
  obtain ⟨f, hf, va, hva, hva32⟩ := formArray1_total a t ha ht
  obtain ⟨g, hg, vb, hvb, hvb32⟩ := formArray2_total b t hb1 hb
  exact ⟨f, g, va, vb, hf, hg, hva, hvb, hva32, hvb32, sample_of_ok hf hva hg hvb⟩

/-- Witness of C7 at the indices 6 and 3 and the counter 1000. -/
theorem nondegenerate_total_witness :
    (Returns32 form1 1000 ∧ Returns32 form2 1000 ∧ Returns32 form5 1000 ∧
      Returns32 form7 1000 ∧ Returns32 form8 1000 ∧ Returns32 form9 1000 ∧
      Returns32 form11 1000 ∧ Returns32 form12 1000 ∧ Returns32 form13 1000 ∧
      Returns32 form14 1000 ∧ Returns32 form15 1000 ∧ Returns32 form16 1000 ∧
      Returns32 form17 1000) ∧
    ∃ f g va vb, readBuf formArray1 6 = .ok f ∧ readBuf formArray2 3 = .ok g ∧
      f 1000 = .ok va ∧ g 1000 = .ok vb ∧ va < 2 ^ 32 ∧ vb < 2 ^ 32 ∧
      sample 6 3 1000 = .ok ((va + vb) % 2 ^ 32) :=
  nondegenerate_total 6 3 1000 (by decide) (by decide) (by decide) (by decide)


/-! ## Nibble layout, sessions and identifier length -/

theorem nibbleSequence_cons (b : Nat) (bs : List Nat) :
    nibbleSequence (b :: bs) = b / 16 :: b % 16 :: nibbleSequence bs := rfl

theorem nibbleSequence_pair (identifier : List Nat) :
    ∀ i (hi : i < identifier.length),
      (nibbleSequence identifier)[2 * i]? = some (identifier[i] / 16) ∧
      (nibbleSequence identifier)[2 * i + 1]? = some (identifier[i] % 16) := by
  induction identifier with
  | nil => intro i hi; simp at hi
  | cons b bs ih =>
    intro i hi
    cases i with
    | zero => simp [nibbleSequence_cons]
    | succ k =>
      have hk : k < bs.length := by simpa using hi
      have h2 : 2 * (k + 1) = 2 * k + 1 + 1 := by omega
      have := ih k hk
      simpa [nibbleSequence_cons, h2] using this

theorem selectionOf_take (identifier : List Nat) (hbytes : ∀ b ∈ identifier, b < 256) :
    (selectionOf identifier).uidNibbles.take (selectionOf identifier).nibbleIndex =
      nibbleSequence identifier := by
  have hseq := codeNibbles_eq_nibbleSequence identifier hbytes
  have hl := length_pairs hiNib loNib identifier
  rw [hseq] at hl
  simp only [selectionOf, hseq]
  rw [← hl, List.take_left]

theorem selectionOf_indices (identifier : List Nat) (hlen : identifier.length ≤ 7)
    (hbytes : ∀ b ∈ identifier, b < 256) :
    (selectionOf identifier).array1ID = specIndexA identifier ∧
    (selectionOf identifier).array2ID = specIndexB identifier := by
  have hseq := codeNibbles_eq_nibbleSequence identifier hbytes
  have hev := evenPositions_pairs hiNib loNib identifier
  have hod := oddPositions_pairs hiNib loNib identifier
  rw [hseq] at hev hod
  constructor
  · simp only [selectionOf, accumulate8_hi identifier hlen, u8_mod7, specIndexA, hev]
  · simp only [selectionOf, accumulate8_lo identifier hlen, u8_mod7, specIndexB, hod]

theorem selectorOf_too_long (identifier : List Nat) (h : 8 ≤ identifier.length) :
    selectorOf identifier = .error .outOfBounds := by
  match identifier, h with
  | _ :: _ :: _ :: _ :: _ :: _ :: _ :: _ :: _, _ => rfl

/-- C8: for every identifier of `L ≤ 7` bytes the selector writes `2 * L`
nibbles, every entry of `uidNibbles` is at most 15, the nibbles are those of the
bytes in order, and entries `2i` and `2i+1` are the high and the low nibble of
byte `i`, so `16 * nibbles[2i] + nibbles[2i+1] = identifier[i]`. -/
theorem nibble_sequence_layout (identifier : List Nat) (hlen : identifier.length ≤ 7)
    (hbytes : ∀ b ∈ identifier, b < 256) :
    ∃ s, selectorOf identifier = .ok s ∧
      s.nibbleIndex = 2 * identifier.length ∧
      (s.uidNibbles.take s.nibbleIndex).length = 2 * identifier.length ∧
      s.uidNibbles.take s.nibbleIndex = nibbleSequence identifier ∧
      (∀ n ∈ s.uidNibbles, n ≤ 15) ∧
      ∀ i (hi : i < identifier.length), ∃ high low,
        (s.uidNibbles.take s.nibbleIndex)[2 * i]? = some high ∧
        (s.uidNibbles.take s.nibbleIndex)[2 * i + 1]? = some low ∧
        high = identifier[i] / 16 ∧ low = identifier[i] % 16 ∧
        16 * high + low = identifier[i] := by
  have htake := selectionOf_take identifier hbytes
  have hl := length_pairs hiNib loNib identifier
  rw [codeNibbles_eq_nibbleSequence identifier hbytes] at hl
  refine ⟨selectionOf identifier, selectorOf_closed identifier hlen, rfl, ?_, htake, ?_, ?_⟩
  · rw [htake, hl]
  · intro n hn
    simp only [selectionOf, List.mem_append, List.mem_flatMap, List.mem_cons,
      List.mem_replicate] at hn
    rcases hn with ⟨b, _, hb⟩ | ⟨_, hz⟩
    · rcases hb with rfl | rfl | hb
      · exact hiNib_le b
      · exact loNib_le b
      · simp at hb
    · omega
  · intro i hi
    obtain ⟨h0, h1⟩ := nibbleSequence_pair identifier i hi
    rw [htake]
    exact ⟨_, _, h0, h1, rfl, rfl, by omega⟩

/-- Witness of C8 on a 4-byte identifier. -/
theorem nibble_sequence_layout_witness :
    ∃ s, selectorOf [0xDE, 0xAD, 0xBE, 0xEF] = .ok s ∧
      s.nibbleIndex = 2 * [0xDE, 0xAD, 0xBE, 0xEF].length ∧
      (s.uidNibbles.take s.nibbleIndex).length = 2 * [0xDE, 0xAD, 0xBE, 0xEF].length ∧
      s.uidNibbles.take s.nibbleIndex = nibbleSequence [0xDE, 0xAD, 0xBE, 0xEF] ∧
      (∀ n ∈ s.uidNibbles, n ≤ 15) ∧
      ∀ i (hi : i < [0xDE, 0xAD, 0xBE, 0xEF].length), ∃ high low,
        (s.uidNibbles.take s.nibbleIndex)[2 * i]? = some high ∧
        (s.uidNibbles.take s.nibbleIndex)[2 * i + 1]? = some low ∧
        high = [0xDE, 0xAD, 0xBE, 0xEF][i] / 16 ∧ low = [0xDE, 0xAD, 0xBE, 0xEF][i] % 16 ∧
        16 * high + low = [0xDE, 0xAD, 0xBE, 0xEF][i] :=
  nibble_sequence_layout [0xDE, 0xAD, 0xBE, 0xEF] (by decide) (by decide)

/-- C10, counterexample: an identifier of 8 bytes does not fit the 7-byte `uid`
array; the selector returns no indices. -/
theorem selector_eight_bytes_faults :
    1 ≤ [0x04, 0x3A, 0x9F, 0x12, 0x55, 0x66, 0x77, 0x88].length ∧
    (∀ b ∈ [0x04, 0x3A, 0x9F, 0x12, 0x55, 0x66, 0x77, 0x88], b < 256) ∧
    selectorOf [0x04, 0x3A, 0x9F, 0x12, 0x55, 0x66, 0x77, 0x88] = .error .outOfBounds ∧
    ¬ ∃ s, selectorOf [0x04, 0x3A, 0x9F, 0x12, 0x55, 0x66, 0x77, 0x88] = .ok s ∧
      s.array1ID = specIndexA [0x04, 0x3A, 0x9F, 0x12, 0x55, 0x66, 0x77, 0x88] ∧
      s.array2ID = specIndexB [0x04, 0x3A, 0x9F, 0x12, 0x55, 0x66, 0x77, 0x88] := by
  refine ⟨by decide, by decide, by decide, ?_⟩
  rintro ⟨s, hs, _⟩
  have h : selectorOf [0x04, 0x3A, 0x9F, 0x12, 0x55, 0x66, 0x77, 0x88] =
      .error .outOfBounds := by decide
  rw [h] at hs
  cases hs

/-- C10, amended: for every identifier of length 1 to 7, the lengths the
7-byte `uid` array holds, the selector returns `indexA` = (sum of the
even-position nibbles) mod 7 and `indexB` = (sum of the odd-position nibbles)
mod 7. -/
theorem selector_lengths_one_to_seven (identifier : List Nat)
    (_h1 : 1 ≤ identifier.length) (h7 : identifier.length ≤ 7)
    (hbytes : ∀ b ∈ identifier, b < 256) :
    ∃ s, selectorOf identifier = .ok s ∧
      s.array1ID = specIndexA identifier ∧ s.array2ID = specIndexB identifier :=
  ⟨selectionOf identifier, selectorOf_closed identifier h7,
    selectionOf_indices identifier h7 hbytes⟩

/-- Witness of C10 (amended) on identifiers of the non-standard length 1. -/
theorem selector_lengths_one_to_seven_witness :
    ∃ s, selectorOf [0xB7] = .ok s ∧
      s.array1ID = specIndexA [0xB7] ∧ s.array2ID = specIndexB [0xB7] :=
  selector_lengths_one_to_seven [0xB7] (by decide) (by decide) (by decide)


/-! ## Coverage, collisions and symmetry of the selector -/

theorem indices_of_seed (a b : Nat) (ha : a < 7) (hb : b < 7) (pad : List Nat)
    (hpad : ∀ x ∈ pad, x = 0) (hlen : pad.length ≤ 6) :
    (∀ x ∈ (16 * a + b) :: pad, x < 256) ∧
    ∃ s, selectorOf ((16 * a + b) :: pad) = .ok s ∧ s.array1ID = a ∧ s.array2ID = b := by
  have hbytes : ∀ x ∈ (16 * a + b) :: pad, x < 256 := by
    intro x hx
    rcases List.mem_cons.mp hx with rfl | hx
    · omega
    · rw [hpad x hx]; decide
  have hl : ((16 * a + b) :: pad).length ≤ 7 := by simp; omega
  have hz : pad = List.replicate pad.length 0 := List.eq_replicate_iff.mpr ⟨rfl, hpad⟩
  obtain ⟨hA, hB⟩ := selectionOf_indices _ hl hbytes
  refine ⟨hbytes, selectionOf _, selectorOf_closed _ hl, ?_, ?_⟩
  · rw [hA, specIndexA, ← codeNibbles_eq_nibbleSequence _ hbytes, evenPositions_pairs,
      List.map_cons, List.sum_cons, hiNib_byte _ (by omega)]
    have h0 : (pad.map hiNib).sum = 0 := by
      rw [hz]; simp [hiNib]
    rw [h0]; omega
  · rw [hB, specIndexB, ← codeNibbles_eq_nibbleSequence _ hbytes, oddPositions_pairs,
      List.map_cons, List.sum_cons, loNib_byte _ (by omega)]
    have h0 : (pad.map loNib).sum = 0 := by
      rw [hz]; simp [loNib]
    rw [h0]; omega

/-- C11: every one of the 49 index pairs is reached.  For all `a`, `b` below 7
there is an identifier of 4 bytes, and one of 7 bytes, on which the selector
returns `(indexA, indexB) = (a, b)`. -/
theorem selector_covers_all_pairs (a b : Nat) (ha : a < 7) (hb : b < 7) :
    (∃ identifier : List Nat, identifier.length = 4 ∧ (∀ x ∈ identifier, x < 256) ∧
      ∃ s, selectorOf identifier = .ok s ∧ s.array1ID = a ∧ s.array2ID = b) ∧
    (∃ identifier : List Nat, identifier.length = 7 ∧ (∀ x ∈ identifier, x < 256) ∧
      ∃ s, selectorOf identifier = .ok s ∧ s.array1ID = a ∧ s.array2ID = b) := by
  obtain ⟨h4, s4⟩ := indices_of_seed a b ha hb [0, 0, 0] (by simp) (by decide)
  obtain ⟨h7, s7⟩ := indices_of_seed a b ha hb [0, 0, 0, 0, 0, 0] (by simp) (by decide)
  exact ⟨⟨[16 * a + b, 0, 0, 0], rfl, h4, s4⟩, ⟨[16 * a + b, 0, 0, 0, 0, 0, 0], rfl, h7, s7⟩⟩

/-- Witness of C11 at the pair (5, 2). -/
theorem selector_covers_all_pairs_witness :
    (∃ identifier : List Nat, identifier.length = 4 ∧ (∀ x ∈ identifier, x < 256) ∧
      ∃ s, selectorOf identifier = .ok s ∧ s.array1ID = 5 ∧ s.array2ID = 2) ∧
    (∃ identifier : List Nat, identifier.length = 7 ∧ (∀ x ∈ identifier, x < 256) ∧
      ∃ s, selectorOf identifier = .ok s ∧ s.array1ID = 5 ∧ s.array2ID = 2) :=
  selector_covers_all_pairs 5 2 (by decide) (by decide)

/-- C12: the selector is not injective.  The distinct 4-byte identifiers
`[0x04, 0x3A, 0x9F, 0x12]` and `[0x74, 0x3A, 0x9F, 0x19]` both give the
indices (6, 3). -/
theorem selector_not_injective :
    ∃ x y : List Nat, x ≠ y ∧ x.length = 4 ∧ y.length = 4 ∧
      (∀ b ∈ x, b < 256) ∧ (∀ b ∈ y, b < 256) ∧
      ∃ s s', selectorOf x = .ok s ∧ selectorOf y = .ok s' ∧
        s.array1ID = s'.array1ID ∧ s.array2ID = s'.array2ID :=
  ⟨[0x04, 0x3A, 0x9F, 0x12], [0x74, 0x3A, 0x9F, 0x19], by decide, rfl, rfl, by decide,
    by decide, selectionOf [0x04, 0x3A, 0x9F, 0x12], selectionOf [0x74, 0x3A, 0x9F, 0x19],
    by decide, by decide, by decide, by decide⟩

set_option maxRecDepth 100000 in
theorem hiNib_shift : ∀ b, b < 256 → hiNib b = b >>> 4 := by decide

/-- C17: the selector depends only on the multiset of the bytes.  For an
identifier of at most 7 bytes and any permutation of it both indices are the
same; `indexA` is the sum of the bytes' high nibbles `byte >> 4` mod 7 and
`indexB` the sum of their low nibbles `byte & 15` mod 7. -/
theorem selector_permutation_invariant (identifier permuted : List Nat)
    (hperm : identifier.Perm permuted) (hlen : identifier.length ≤ 7)
    (hbytes : ∀ b ∈ identifier, b < 256) :
    ∃ s s', selectorOf identifier = .ok s ∧ selectorOf permuted = .ok s' ∧
      s.array1ID = s'.array1ID ∧ s.array2ID = s'.array2ID ∧
      s.array1ID = (identifier.map (fun b => b >>> 4)).sum % 7 ∧
      s.array2ID = (identifier.map (fun b => b &&& 15)).sum % 7 := by
  have hlen' : permuted.length ≤ 7 := by rw [← hperm.length_eq]; exact hlen
  have hhi : (identifier.map hiNib).sum = (permuted.map hiNib).sum :=
    (hperm.map hiNib).sum_eq
  have hlo : (identifier.map loNib).sum = (permuted.map loNib).sum :=
    (hperm.map loNib).sum_eq
  have hshift : identifier.map hiNib = identifier.map (fun b => b >>> 4) :=
    List.map_congr_left (fun b hb => hiNib_shift b (hbytes b hb))
  refine ⟨selectionOf identifier, selectionOf permuted, selectorOf_closed identifier hlen,
    selectorOf_closed permuted hlen', ?_, ?_, ?_, ?_⟩
  · simp only [selectionOf, accumulate8_hi identifier hlen, accumulate8_hi permuted hlen', hhi]
  · simp only [selectionOf, accumulate8_lo identifier hlen, accumulate8_lo permuted hlen', hlo]
  · simp only [selectionOf, accumulate8_hi identifier hlen, u8_mod7]
    rw [hshift]
  · simp only [selectionOf, accumulate8_lo identifier hlen, u8_mod7]
    rfl

/-- Witness of C17 on a 4-byte identifier and its reversal. -/
theorem selector_permutation_invariant_witness :
    ∃ s s', selectorOf [0x04, 0x3A, 0x9F, 0x12] = .ok s ∧
      selectorOf [0x12, 0x9F, 0x3A, 0x04] = .ok s' ∧
      s.array1ID = s'.array1ID ∧ s.array2ID = s'.array2ID ∧
      s.array1ID = ([0x04, 0x3A, 0x9F, 0x12].map (fun b => b >>> 4)).sum % 7 ∧
      s.array2ID = ([0x04, 0x3A, 0x9F, 0x12].map (fun b => b &&& 15)).sum % 7 :=
  selector_permutation_invariant [0x04, 0x3A, 0x9F, 0x12] [0x12, 0x9F, 0x3A, 0x04]
    (by decide) (by decide) (by decide)


/-! ## Shifts, the first sample and the masked formulas -/

theorem ne_shiftRange_of_ok {f : formulaArrayType} {t v : Nat} (h : f t = .ok v) :
    f t ≠ .error .shiftRange := by
  rw [h]; intro e; cases e

theorem form6_ne_shiftRange (t : Nat) : form6 t ≠ .error .shiftRange := by
  rw [form6_eq]
  split <;> (intro e; cases e)

/-- C13: no shift in the 14 formulas is undefined.  For every unsigned 32-bit
`t` no formula evaluation faults on a shift; the constant amounts are at most
16 (and any amount up to 31 is defined), the computed amounts of `form8` and
`form9` are `(t/1024)%16` and `(t/256)%16`, at most 15, and every product is
taken modulo 2^32. -/
theorem shifts_defined (t : Nat) (_ht : t < 2 ^ 32) :
    (∀ f ∈ formArray1 ++ formArray2, f t ≠ .error .shiftRange) ∧
    (∀ n ∈ constantShiftAmounts, n ≤ 16) ∧
    (∀ a n, n ≤ 31 → shr a n = .ok (a >>> n)) ∧
    t / 1024 % 16 ≤ 15 ∧ t / 256 % 16 ≤ 15 ∧
    shr t (t / 1024 % 16) = .ok (t >>> (t / 1024 % 16)) ∧
    shr t (t / 256 % 16) = .ok (t >>> (t / 256 % 16)) ∧
    form8 t = .ok (umul t t / 256 &&& t >>> (t / 1024 % 16)) ∧
    form9 t = .ok (umul t t / 128 &&& t >>> (t / 256 % 16)) ∧
    (∀ a b, umul a b = a * b % 2 ^ 32 ∧ umul a b < 2 ^ 32) := by
  have hshr : ∀ a n, n ≤ 31 → shr a n = .ok (a >>> n) := by
    intro a n hn
    have : n < 32 := by omega
    simp [shr, this]
  refine ⟨?_, by decide, hshr, by omega, by omega, hshr _ _ (by omega), hshr _ _ (by omega),
    form8_eq t, form9_eq t, fun a b => ⟨rfl, umul_lt a b⟩⟩
  intro f hf
  simp only [formArray1, formArray2, List.cons_append, List.nil_append, List.mem_cons,
    List.not_mem_nil, or_false] at hf
  rcases hf with rfl | rfl | rfl | rfl | rfl | rfl | rfl | rfl | rfl | rfl | rfl | rfl | rfl | rfl
  · exact ne_shiftRange_of_ok (form1_eq t)
  · exact ne_shiftRange_of_ok (form2_eq t)
  · exact ne_shiftRange_of_ok (form5_eq t)
  · exact ne_shiftRange_of_ok (form7_eq t)
  · exact ne_shiftRange_of_ok (form11_eq t)
  · exact ne_shiftRange_of_ok (form15_eq t)
  · exact ne_shiftRange_of_ok (form16_eq t)
  · exact form6_ne_shiftRange t
  · exact ne_shiftRange_of_ok (form8_eq t)
  · exact ne_shiftRange_of_ok (form9_eq t)
  · exact ne_shiftRange_of_ok (form12_eq t)
  · exact ne_shiftRange_of_ok (form13_eq t)
  · exact ne_shiftRange_of_ok (form14_eq t)
  · exact ne_shiftRange_of_ok (form17_eq t)

/-- Witness of C13 at the largest unsigned 32-bit counter. -/
theorem shifts_defined_witness :
    (∀ f ∈ formArray1 ++ formArray2, f 4294967295 ≠ .error .shiftRange) ∧
    (∀ n ∈ constantShiftAmounts, n ≤ 16) ∧
    (∀ a n, n ≤ 31 → shr a n = .ok (a >>> n)) ∧
    4294967295 / 1024 % 16 ≤ 15 ∧ 4294967295 / 256 % 16 ≤ 15 ∧
    shr 4294967295 (4294967295 / 1024 % 16) =
      .ok (4294967295 >>> (4294967295 / 1024 % 16)) ∧
    shr 4294967295 (4294967295 / 256 % 16) =
      .ok (4294967295 >>> (4294967295 / 256 % 16)) ∧
    form8 4294967295 =
      .ok (umul 4294967295 4294967295 / 256 &&& 4294967295 >>> (4294967295 / 1024 % 16)) ∧
    form9 4294967295 =
      .ok (umul 4294967295 4294967295 / 128 &&& 4294967295 >>> (4294967295 / 256 % 16)) ∧
    (∀ a b, umul a b = a * b % 2 ^ 32 ∧ umul a b < 2 ^ 32) :=
  shifts_defined 4294967295 (by decide)

theorem sample_zero (a b : Nat) (ha : a < 7) (hb1 : 1 ≤ b) (hb : b < 7) :
    sample a b 0 = .ok 0 := by
  interval_cases a <;> interval_cases b <;> decide

/-- C15: `form1` is `(t & (t>>6)) | ((t>>2) % 256)` for every `t` and returns 0
at `t = 0`; each of the 13 formulas other than `form6` returns 0 at `t = 0`, so
the first sample of every session with `indexB ≠ 0` is 0. -/
theorem first_sample_zero (a b : Nat) (ha : a < 7) (hb1 : 1 ≤ b) (hb : b < 7) :
    (∀ t, form1 t = .ok ((t &&& (t >>> 6)) ||| ((t >>> 2) % 256))) ∧
    form1 0 = .ok 0 ∧ form2 0 = .ok 0 ∧ form5 0 = .ok 0 ∧ form7 0 = .ok 0 ∧
    form8 0 = .ok 0 ∧ form9 0 = .ok 0 ∧ form11 0 = .ok 0 ∧ form12 0 = .ok 0 ∧
    form13 0 = .ok 0 ∧ form14 0 = .ok 0 ∧ form15 0 = .ok 0 ∧ form16 0 = .ok 0 ∧
    form17 0 = .ok 0 ∧
    sample a b 0 = .ok 0 ∧
    ∃ out, render a b = .ok out ∧ out[0]? = some 0 := by
  refine ⟨form1_eq, by decide, by decide, by decide, by decide, by decide, by decide,
    by decide, by decide, by decide, by decide, by decide, by decide, by decide,
    sample_zero a b ha hb1 hb, ?_⟩
  obtain ⟨out, hout, _, hk⟩ := render_nondegenerate a b ha hb1 hb
  obtain ⟨v, hv, hs⟩ := hk 0 (by decide)
  rw [sample_zero a b ha hb1 hb] at hs
  cases hs
  exact ⟨out, hout, hv⟩

/-- Witness of C15 at the indices 2 and 5. -/
theorem first_sample_zero_witness :
    (∀ t, form1 t = .ok ((t &&& (t >>> 6)) ||| ((t >>> 2) % 256))) ∧
    form1 0 = .ok 0 ∧ form2 0 = .ok 0 ∧ form5 0 = .ok 0 ∧ form7 0 = .ok 0 ∧
    form8 0 = .ok 0 ∧ form9 0 = .ok 0 ∧ form11 0 = .ok 0 ∧ form12 0 = .ok 0 ∧
    form13 0 = .ok 0 ∧ form14 0 = .ok 0 ∧ form15 0 = .ok 0 ∧ form16 0 = .ok 0 ∧
    form17 0 = .ok 0 ∧
    sample 2 5 0 = .ok 0 ∧
    ∃ out, render 2 5 = .ok out ∧ out[0]? = some 0 :=
  first_sample_zero 2 5 (by decide) (by decide) (by decide)

theorem and_8 (x : Nat) : x &&& 8 = 0 ∨ x &&& 8 = 8 := by
  have h : x &&& 8 = x % 16 &&& 8 := by
    rw [← Nat.and_pow_two_sub_one_eq_mod x 4, Nat.and_assoc]
    rfl
  have hlt : x % 16 < 16 := Nat.mod_lt _ (by decide)
  rw [h]
  generalize x % 16 = y at hlt
  revert y
  decide

theorem and_16 (x : Nat) : x &&& 16 = 0 ∨ x &&& 16 = 16 := by
  have h : x &&& 16 = x % 32 &&& 16 := by
    rw [← Nat.and_pow_two_sub_one_eq_mod x 5, Nat.and_assoc]
    rfl
  have hlt : x % 32 < 32 := Nat.mod_lt _ (by decide)
  rw [h]
  generalize x % 32 = y at hlt
  revert y
  decide

theorem and_32 (x : Nat) : x &&& 32 = 0 ∨ x &&& 32 = 32 := by
  have h : x &&& 32 = x % 64 &&& 32 := by
    rw [← Nat.and_pow_two_sub_one_eq_mod x 6, Nat.and_assoc]
    rfl
  have hlt : x % 64 < 64 := Nat.mod_lt _ (by decide)
  rw [h]
  generalize x % 64 = y at hlt
  revert y
  decide

theorem form12_two_valued (t : Nat) : form12 t = .ok 0 ∨ form12 t = .ok 32 := by
  rw [form12_eq]
  rcases and_16 (umul t (t >>> 10 ||| t >>> 5)) with h | h <;> rw [h]
  · left; rfl
  · right; rfl

theorem form13_two_valued (t : Nat) : form13 t = .ok 0 ∨ form13 t = .ok 32 := by
  rw [form13_eq]
  rcases and_16 (umul (umul 2 t) (t >>> 14 ||| t >>> 12)) with h | h <;> rw [h]
  · left; rfl
  · right; rfl

theorem form14_two_valued (t : Nat) : form14 t = .ok 0 ∨ form14 t = .ok 32 := by
  rw [form14_eq]
  rcases and_16 (umul t (t >>> 9 ||| t >>> 13)) with h | h <;> rw [h]
  · left; rfl
  · right; rfl

theorem form15_two_valued (t : Nat) : form15 t = .ok 0 ∨ form15 t = .ok 64 := by
  rw [form15_eq]
  rcases and_32 (umul t (t >>> 12 ||| t >>> 6)) with h | h <;> rw [h]
  · left; rfl
  · right; rfl

theorem form16_two_valued (t : Nat) : form16 t = .ok 0 ∨ form16 t = .ok 64 := by
  rw [form16_eq]
  rcases and_32 (umul t (umul 3 t >>> 4 ||| umul 2 t >>> 10)) with h | h <;> rw [h]
  · left; rfl
  · right; rfl

theorem form17_two_valued (t : Nat) : form17 t = .ok 0 ∨ form17 t = .ok 64 := by
  rw [form17_eq]
  rcases and_8 (umul t (t >>> 14 ||| t >>> 10)) with h | h <;> rw [h]
  · left; rfl
  · right; rfl

theorem sample_masked {a b t : Nat} {f g : formulaArrayType}
    (hf : readBuf formArray1 a = .ok f) (hg : readBuf formArray2 b = .ok g)
    (hfv : f t = .ok 0 ∨ f t = .ok 64)
    (hgv : g t = .ok 0 ∨ g t = .ok 32 ∨ g t = .ok 64) :
    ∃ v, sample a b t = .ok v ∧ v ∈ [0, 32, 64, 96, 128] := by
  rcases hfv with h1 | h1 <;> rcases hgv with h2 | h2 | h2 <;>
    exact ⟨_, sample_of_ok hf h1 hg h2, by decide⟩

/-- C18: the six masked formulas take two values.  `form12`, `form13` and
`form14` are 0 or 32, `form15`, `form16` and `form17` are 0 or 64; hence for
`indexA` in {5,6} and `indexB` in {3,4,5,6} every sample is one of 0, 32, 64,
96, 128 and is unchanged by the reduction to 8 bits. -/
theorem masked_formulas_two_valued (a b t : Nat) (ha : a = 5 ∨ a = 6)
    (hb : b = 3 ∨ b = 4 ∨ b = 5 ∨ b = 6) :
    (form12 t = .ok 0 ∨ form12 t = .ok 32) ∧
    (form13 t = .ok 0 ∨ form13 t = .ok 32) ∧
    (form14 t = .ok 0 ∨ form14 t = .ok 32) ∧
    (form15 t = .ok 0 ∨ form15 t = .ok 64) ∧
    (form16 t = .ok 0 ∨ form16 t = .ok 64) ∧
    (form17 t = .ok 0 ∨ form17 t = .ok 64) ∧
    ∃ v, sample a b t = .ok v ∧ v ∈ [0, 32, 64, 96, 128] ∧ v < 2 ^ 8 ∧ u8 v = v := by
  refine ⟨form12_two_valued t, form13_two_valued t, form14_two_valued t,
    form15_two_valued t, form16_two_valued t, form17_two_valued t, ?_⟩
  have hA : ∃ f, readBuf formArray1 a = .ok f ∧ (f t = .ok 0 ∨ f t = .ok 64) := by
    rcases ha with rfl | rfl
    · exact ⟨form15, rfl, form15_two_valued t⟩
    · exact ⟨form16, rfl, form16_two_valued t⟩
  have hB : ∃ g, readBuf formArray2 b = .ok g ∧
      (g t = .ok 0 ∨ g t = .ok 32 ∨ g t = .ok 64) := by
    rcases hb with rfl | rfl | rfl | rfl
    · exact ⟨form12, rfl, (form12_two_valued t).imp_right Or.inl⟩
    · exact ⟨form13, rfl, (form13_two_valued t).imp_right Or.inl⟩
    · exact ⟨form14, rfl, (form14_two_valued t).imp_right Or.inl⟩
    · exact ⟨form17, rfl, (form17_two_valued t).imp_right Or.inr⟩
  obtain ⟨f, hf, hfv⟩ := hA
  obtain ⟨g, hg, hgv⟩ := hB
  obtain ⟨v, hv, hmem⟩ := sample_masked hf hg hfv hgv
  have hlt : v < 2 ^ 8 := by
    simp only [List.mem_cons, List.mem_singleton, List.not_mem_nil, or_false] at hmem
    rcases hmem with rfl | rfl | rfl | rfl | rfl <;> decide
  exact ⟨v, hv, hmem, hlt, Nat.mod_eq_of_lt hlt⟩

/-- Witness of C18 at the indices 6 and 3 and the counter 1000. -/
theorem masked_formulas_two_valued_witness :
    (form12 1000 = .ok 0 ∨ form12 1000 = .ok 32) ∧
    (form13 1000 = .ok 0 ∨ form13 1000 = .ok 32) ∧
    (form14 1000 = .ok 0 ∨ form14 1000 = .ok 32) ∧
    (form15 1000 = .ok 0 ∨ form15 1000 = .ok 64) ∧
    (form16 1000 = .ok 0 ∨ form16 1000 = .ok 64) ∧
    (form17 1000 = .ok 0 ∨ form17 1000 = .ok 64) ∧
    ∃ v, sample 6 3 1000 = .ok v ∧ v ∈ [0, 32, 64, 96, 128] ∧ v < 2 ^ 8 ∧ u8 v = v :=
  masked_formulas_two_valued 6 3 1000 (Or.inr rfl) (Or.inl rfl)


/-! ## Pacing -/

theorem renderTimedLoop_closed (a b : Nat) :
    ∀ (fuel t : Nat) (out : List Nat) (elapsed : Nat), t ≤ DURATION * RATE_11K →
      DURATION * RATE_11K - t < fuel →
      (∀ k, t ≤ k → k < DURATION * RATE_11K → ∃ v, sample a b k = .ok v) →
      renderTimedLoop a b fuel t out elapsed =
        .ok (out ++ (List.range' t (DURATION * RATE_11K - t)).map (sampleValue a b),
             elapsed + (DURATION * RATE_11K - t) * DELAY_11K) := by
  have hN : DURATION * RATE_11K = 110250 := by decide
  intro fuel
  induction fuel with
  | zero => intro t out _ _ hf _; omega
  | succ fuel ih =>
    intro t out elapsed ht hf hs
    by_cases hlt : t < DURATION * RATE_11K
    · obtain ⟨v, hv⟩ := hs t (Nat.le_refl t) hlt
      have hu : u32 (t + 1) = t + 1 := Nat.mod_eq_of_lt (by omega)
      obtain ⟨m, hm⟩ : ∃ m, DURATION * RATE_11K - t = m + 1 :=
        ⟨DURATION * RATE_11K - t - 1, by omega⟩
      have hm' : DURATION * RATE_11K - (t + 1) = m := by omega
      have step := ih (t + 1) (out ++ [v]) (elapsed + DELAY_11K) (by omega) (by omega)
        (fun k hk hkN => hs k (by omega) hkN)
      rw [hm'] at step
      have hsum : elapsed + DELAY_11K + m * DELAY_11K = elapsed + (m + 1) * DELAY_11K := by
        rw [Nat.add_mul, Nat.one_mul]; omega
      simp only [renderTimedLoop, hlt, if_true, hv, bind, Except.bind, hu, step, hm,
        List.range'_succ, List.map_cons, sampleValue_of_ok hv, List.append_assoc,
        List.singleton_append, hsum]
    · have ht' : DURATION * RATE_11K - t = 0 := by omega
      simp [renderTimedLoop, hlt, ht']

theorem renderTimed_closed (a b : Nat) (ha : a < 7) (hb1 : 1 ≤ b) (hb : b < 7) :
    ∃ out, render a b = .ok out ∧ out.length = 110250 ∧
      renderTimed a b = .ok (out, 110250 * DELAY_11K) := by
  have hN : DURATION * RATE_11K = 110250 := by decide
  have hs : ∀ k, k < DURATION * RATE_11K → ∃ v, sample a b k = .ok v := by
    intro k hk
    obtain ⟨v, hv, _⟩ := sample_nondegenerate a b k ha hb1 hb (by omega)
    exact ⟨v, hv⟩
  have h := renderTimedLoop_closed a b (DURATION * RATE_11K + 1) 0 [] 0 (Nat.zero_le _)
    (by omega) (fun k _ hk => hs k hk)
  refine ⟨_, render_closed a b hs, by simp [hN], ?_⟩
  simpa [renderTimed, List.range_eq_range', hN] using h

/-- C14, counterexample: the delay of the 11025 Hz session is not the sample
period.  `DELAY_11K * RATE_11K` is 992250, not 1000000, and the delays a
session of 110250 samples requests add up to 9922500 microseconds, not 10
seconds; the pairs (44100, 22) and (22050, 45) miss 1000000 as well. -/
theorem pacing_not_exact :
    DELAY_11K * RATE_11K = 992250 ∧ DELAY_11K * RATE_11K ≠ 1000000 ∧
    DELAY_44K * RATE_44K = 970200 ∧ DELAY_22K * RATE_22K = 992250 ∧
    (∃ out, renderTimed 6 3 = .ok (out, 9922500)) ∧ 9922500 ≠ 10 * 1000000 := by
  refine ⟨by decide, by decide, by decide, by decide, ?_, by decide⟩
  obtain ⟨out, _, _, h⟩ := renderTimed_closed 6 3 (by decide) (by decide) (by decide)
  exact ⟨out, h⟩

/-- C14, amended: each configured delay is the sample period 1000000 / rate
rounded down to whole microseconds, exact only for (8000, 125); a session of
110250 samples at 11025 Hz requests 110250 * 90 = 9922500 microseconds of
delay, 77500 less than 10 seconds. -/
theorem pacing_rounded_down (a b : Nat) (ha : a < 7) (hb1 : 1 ≤ b) (hb : b < 7) :
    DELAY_44K = 1000000 / RATE_44K ∧ DELAY_22K = 1000000 / RATE_22K ∧
    DELAY_11K = 1000000 / RATE_11K ∧ DELAY_8K = 1000000 / RATE_8K ∧
    DELAY_8K * RATE_8K = 1000000 ∧
    (∃ out, render a b = .ok out ∧ out.length = 110250 ∧
      renderTimed a b = .ok (out, 9922500)) ∧
    9922500 = 110250 * DELAY_11K ∧ 9922500 + 77500 = DURATION * 1000000 := by
  refine ⟨by decide, by decide, by decide, by decide, by decide, ?_, by decide, by decide⟩
  obtain ⟨out, h1, h2, h3⟩ := renderTimed_closed a b ha hb1 hb
  exact ⟨out, h1, h2, h3⟩

/-- Witness of C14 (amended) at the indices 6 and 3. -/
theorem pacing_rounded_down_witness :
    DELAY_44K = 1000000 / RATE_44K ∧ DELAY_22K = 1000000 / RATE_22K ∧
    DELAY_11K = 1000000 / RATE_11K ∧ DELAY_8K = 1000000 / RATE_8K ∧
    DELAY_8K * RATE_8K = 1000000 ∧
    (∃ out, render 6 3 = .ok out ∧ out.length = 110250 ∧
      renderTimed 6 3 = .ok (out, 9922500)) ∧
    9922500 = 110250 * DELAY_11K ∧ 9922500 + 77500 = DURATION * 1000000 :=
  pacing_rounded_down 6 3 (by decide) (by decide) (by decide)

/-! ## Buffer bounds of the selector -/

theorem extractLoop_run (pad : List Nat) (todo : List Nat) :
    ∀ (done pre : List Nat) (n fuel uidLength : Nat),
      pre.length = 2 * done.length → 2 * todo.length ≤ n →
      done.length + todo.length ≤ uidLength → done.length + todo.length ≤ 127 →
      extractLoop (done ++ todo ++ pad) uidLength (fuel + todo.length) done.length
          (pre ++ List.replicate n 0) (2 * done.length) =
        extractLoop (done ++ todo ++ pad) uidLength fuel (done.length + todo.length)
          (pre ++ todo.flatMap (fun b => [hiNib b, loNib b]) ++
            List.replicate (n - 2 * todo.length) 0)
          (2 * (done.length + todo.length)) := by
  induction todo with
  | nil => intro done pre n fuel uidLength _ _ _ _; simp
  | cons b bs ih =>
    intro done pre n fuel uidLength hpre hn hlen hL
    simp only [List.length_cons] at hn hlen hL
    obtain ⟨m, rfl⟩ : ∃ m, n = m + 2 := ⟨n - 2, by omega⟩
    have step := ih (done ++ [b]) (pre ++ [hiNib b, loNib b]) m fuel uidLength
      (by simp [hpre]; omega) (by omega) (by simp; omega) (by simp; omega)
    simp only [List.length_append, List.length_singleton, List.append_assoc,
      List.singleton_append, List.cons_append, List.nil_append] at step
    have hw1 : writeBuf (pre ++ 0 :: 0 :: List.replicate m 0) (2 * done.length)
        ((b &&& 0xF0) >>> 4) = .ok (pre ++ hiNib b :: 0 :: List.replicate m 0) := by
      rw [← hpre]; exact writeBuf_at_length _ _ _ _
    have hw2 : writeBuf (pre ++ hiNib b :: 0 :: List.replicate m 0) (2 * done.length + 1)
        (b &&& 0x0F) = .ok (pre ++ hiNib b :: loNib b :: List.replicate m 0) := by
      have := writeBuf_at_length (pre ++ [hiNib b]) (List.replicate m 0) 0 (loNib b)
      simpa [hpre, loNib] using this
    have hr : readBuf (done ++ b :: (bs ++ pad)) done.length = .ok b :=
      readBuf_at_length done (bs ++ pad) b
    have e1 : u8 (2 * done.length + 1) = 2 * done.length + 1 := u8_of_lt (by omega)
    have e2 : u8 (2 * done.length + 1 + 1) = 2 * (done.length + 1) := by
      rw [u8_of_lt (by omega)]; omega
    have e3 : u8 (done.length + 1) = done.length + 1 := u8_of_lt (by omega)
    have hlt : done.length < uidLength := by omega
    have hfuel : fuel + (bs.length + 1) = fuel + bs.length + 1 := by omega
    have hidx : done.length + (bs.length + 1) = done.length + 1 + bs.length := by omega
    have hm : m + 2 - 2 * (bs.length + 1) = m - 2 * bs.length := by omega
    rw [List.length_cons, hfuel, hidx, hm]
    simp only [extractLoop, hlt, if_true, List.append_assoc, hr, bind,
      Except.bind, List.replicate_succ, hw1, hw2, e1, e2, e3, List.cons_append] at step ⊢
    rw [step]
    simp

theorem selector_closed (uid : List Nat) (uidLength : Nat) (hlen : uidLength ≤ uid.length)
    (h7 : uidLength ≤ 7) :
    selector uid uidLength [0, 0, 0, 0, 0, 0, 0, 0, 0, 0, 0, 0, 0, 0] =
      .ok (selectionOf (uid.take uidLength)) := by
  have hz14 : [0, 0, 0, 0, 0, 0, 0, 0, 0, 0, 0, 0, 0, 0] = [] ++ List.replicate 14 0 := rfl
  have htl : (uid.take uidLength).length = uidLength := by
    rw [List.length_take]; omega
  have hext := extractLoop_closed (uid.drop uidLength) (uid.take uidLength) [] []
    14 256 rfl (by omega) (by omega) (by simp; omega)
  have hsum := sumLoop_closed (List.replicate (14 - 2 * (uid.take uidLength).length) 0)
    (uid.take uidLength) [] 0 256 0 0 rfl (by omega) (by omega)
  simp only [List.length_nil, List.nil_append, Nat.zero_add, Nat.mul_zero,
    List.take_append_drop, htl] at hext hsum
  rw [hz14]
  simp only [List.nil_append, bind, Except.bind, pure, Except.pure, selector,
    extractNibbles, hext, nibbleSums, hsum, selectionOf, accumulate8, htl]

theorem extractNibbles_overrun (uid : List Nat) (uidLength : Nat) (huid : uid.length = 7)
    (hL : 8 ≤ uidLength) :
    extractNibbles uid uidLength [0, 0, 0, 0, 0, 0, 0, 0, 0, 0, 0, 0, 0, 0] =
      .error .outOfBounds := by
  have hz14 : [0, 0, 0, 0, 0, 0, 0, 0, 0, 0, 0, 0, 0, 0] = [] ++ List.replicate 14 0 := rfl
  have hrun := extractLoop_run [] uid [] [] 14 249 uidLength rfl (by omega)
    (by simp; omega) (by simp; omega)
  simp only [List.length_nil, List.nil_append, List.append_nil, Nat.zero_add, Nat.mul_zero,
    huid] at hrun
  have hread : readBuf uid 7 = .error .outOfBounds := by
    have : uid[7]? = none := List.getElem?_eq_none (by omega)
    simp [readBuf, this]
  have hlt : 7 < uidLength := by omega
  unfold extractNibbles
  rw [hz14, List.nil_append, hrun]
  simp only [extractLoop, hlt, if_true, hread, bind, Except.bind]

/-- C19: the selector's array accesses stay in bounds exactly up to 7 bytes.
With the 7-entry `uid` and the 14-entry `uidNibbles`, every `uidLength ≤ 7`
runs without an out-of-bounds access (every index `i` into `uid` is below 7,
every index into `uidNibbles` below 14) and `nibbleIndex` ends at
`2 * uidLength`; with `uidLength = 8` the read `uid[7]` is outside `uid`. -/
theorem buffer_accesses_in_bounds (uid : List Nat) (uidLength : Nat)
    (huid : uid.length = 7) (hL : uidLength ≤ 7) :
    (∃ s, selector uid uidLength [0, 0, 0, 0, 0, 0, 0, 0, 0, 0, 0, 0, 0, 0] = .ok s ∧
      s.nibbleIndex = 2 * uidLength ∧ s.uidNibbles.length = 14) ∧
    (∀ i, i < uidLength → i < uid.length ∧ 2 * i < 14 ∧ 2 * i + 1 < 14) ∧
    readBuf uid 7 = .error .outOfBounds ∧
    extractNibbles uid 8 [0, 0, 0, 0, 0, 0, 0, 0, 0, 0, 0, 0, 0, 0] =
      .error .outOfBounds ∧
    selector uid 8 [0, 0, 0, 0, 0, 0, 0, 0, 0, 0, 0, 0, 0, 0] = .error .outOfBounds := by
  have htl : (uid.take uidLength).length = uidLength := by
    rw [List.length_take]; omega
  have hover := extractNibbles_overrun uid 8 huid (Nat.le_refl 8)
  refine ⟨⟨_, selector_closed uid uidLength (by omega) hL, ?_, ?_⟩, ?_, ?_, hover, ?_⟩
  · simp only [selectionOf, htl]
  · simp only [selectionOf, List.length_append, length_pairs, List.length_replicate, htl]
    omega
  · intro i hi; omega
  · have : uid[7]? = none := List.getElem?_eq_none (by omega)
    simp [readBuf, this]
  · simp only [selector, hover, bind, Except.bind]

/-- Witness of C19 on a full 7-byte buffer. -/
theorem buffer_accesses_in_bounds_witness :
    (∃ s, selector [0x04, 0xA2, 0x5B, 0xC1, 0x7F, 0x33, 0x80] 7
        [0, 0, 0, 0, 0, 0, 0, 0, 0, 0, 0, 0, 0, 0] = .ok s ∧
      s.nibbleIndex = 2 * 7 ∧ s.uidNibbles.length = 14) ∧
    (∀ i, i < 7 → i < [0x04, 0xA2, 0x5B, 0xC1, 0x7F, 0x33, 0x80].length ∧
      2 * i < 14 ∧ 2 * i + 1 < 14) ∧
    readBuf [0x04, 0xA2, 0x5B, 0xC1, 0x7F, 0x33, 0x80] 7 = .error .outOfBounds ∧
    extractNibbles [0x04, 0xA2, 0x5B, 0xC1, 0x7F, 0x33, 0x80] 8
      [0, 0, 0, 0, 0, 0, 0, 0, 0, 0, 0, 0, 0, 0] = .error .outOfBounds ∧
    selector [0x04, 0xA2, 0x5B, 0xC1, 0x7F, 0x33, 0x80] 8
      [0, 0, 0, 0, 0, 0, 0, 0, 0, 0, 0, 0, 0, 0] = .error .outOfBounds :=
  buffer_accesses_in_bounds [0x04, 0xA2, 0x5B, 0xC1, 0x7F, 0x33, 0x80] 7 rfl (by decide)


/-! ## The two entry points -/

end NFSound
